import Mathlib

/-!
# hcat: the resolver pass, the `kv.list` dependency and the watcher registry

A shallow embedding of `resolver.go` (`Resolver.Run`) and of
`internal/dependency/kv_list.go` (`KVListQuery`), together with models of the
watcher registry and of the `catalog.service` query, whose sources are known
only through their tests; followed by theorems about them.

Conventions of the embedding.

* Go methods that mutate their receiver, or an object reached through an
  interface, take the state in and hand the new state back.
* Calls made through an interface (`Watcherer`, `Templater`, the store
  client) are recorded, in order, in a call log, so that "calls X" and "does not
  call X" are statements about that log.
* A Go `error` is an `Option`: `none` is `nil`.
* A run-time panic is an explicit outcome, never a missing case.
* Go `string`s are Lean `String`s; `[]byte` is a list of bytes.
-/

namespace Hcat

/-! ## resolver.go -/

/-- Go `[]byte`; the `nil` slice and the empty slice are both `[]`. -/
abbrev Bytes := List (Fin 256)

/-- Modelled from the spec: the `DepSet` type (the type of `ExecuteResult.Used`
and `ExecuteResult.Missing`) is not among the source files. The spec calls it a
set of dependencies, "order irrelevant, uniqueness by identity"; `Run` only
observes it through `Len()` and `List()`, so it is kept as the list `List()`
returns, with `Len()` its length. -/
structure DepSet (D : Type) where
  list : List D
  deriving DecidableEq, Repr

/-- `DepSet.Len()`. -/
def DepSet.Len {D : Type} (s : DepSet D) : Nat := s.list.length

/-- `DepSet.List()`. -/
def DepSet.List {D : Type} (s : DepSet D) : List D := s.list

/-- Modelled from the spec: `ExecuteResult` is declared outside the source
files; `Run` reads its `Used`, `Missing` and `Output` fields. -/
structure ExecuteResult (D : Type) where
  Used : DepSet D
  Missing : DepSet D
  Output : Bytes
  deriving DecidableEq, Repr

/-- `ResolveEvent`: the field defaults are Go's zero values, so `{}` is
`ResolveEvent{}`. -/
structure ResolveEvent where
  Complete : Bool := false
  Contents : Bytes := []
  missing : Bool := false
  deriving DecidableEq, Repr

/-- `Watcherer`: the watcher's methods over its state `σ`. `Changed` may
change the state (checking consumes the marker), `Add` reports whether the
dependency was newly added. -/
structure Watcherer (σ D : Type) where
  Add : D → σ → Bool × σ
  Changed : String → σ → Bool × σ
  Register : String → List D → σ → σ

/-- `Templater`: `Execute` returns the Go pair `(*ExecuteResult, error)`, either
of which may be `nil`, and may change the state (its `Recaller` argument is the
watcher, which is part of that state); `ID()` is the template's identifier, the
same string at both places `Run` asks for it. -/
structure Templater (σ D E : Type) where
  Execute : σ → (Option (ExecuteResult D) × Option E) × σ
  ID : String

/-- One call made by `Run` through the `Watcherer` or `Templater` interface. -/
inductive Call (D : Type) where
  | Changed (tmplID : String)
  | Execute
  | Register (tmplID : String) (deps : List D)
  | Add (d : D)
  deriving DecidableEq, Repr

/-- How a call of `Run` ends: it returns `(ResolveEvent, error)`, or it panics
on dereferencing a `nil` `*ExecuteResult` returned together with a `nil`
error. -/
inductive Outcome (E : Type) where
  | returned (ev : ResolveEvent) (err : Option E)
  | nilDereference
  deriving DecidableEq, Repr

/-- What one call of `Run` amounts to: its outcome, the state it leaves, and
the calls it made, in order. -/
structure Pass (σ D E : Type) where
  out : Outcome E
  state : σ
  calls : List (Call D)

/-- The loop `for _, d := range result.Missing.List() { w.Add(d) }`, threading
the state and the call log; the boolean `Add` returns is dropped, as in the
source. -/
def addMissing {σ D : Type} (w : Watcherer σ D) (ds : List D) (s : σ) (log : List (Call D)) :
    σ × List (Call D) :=
  ds.foldl (fun acc d => ((w.Add d acc.1).2, acc.2 ++ [Call.Add d])) (s, log)

/-- `Resolver.Run`. -/
def Run {σ D E : Type} (tmpl : Templater σ D E) (w : Watcherer σ D) (s0 : σ) : Pass σ D E :=
  let chg := w.Changed tmpl.ID s0
  let c1 : List (Call D) := [Call.Changed tmpl.ID]
  if !chg.1 then
    ⟨Outcome.returned {} none, chg.2, c1⟩
  else
    let ex := tmpl.Execute chg.2
    let c2 := c1 ++ [Call.Execute]
    match ex.1.2 with
    | some e => ⟨Outcome.returned {} (some e), ex.2, c2⟩
    | none =>
      match ex.1.1 with
      | none => ⟨Outcome.nilDereference, ex.2, c2⟩
      | some result =>
        let reg : σ × List (Call D) :=
          if result.Used.Len > 0 then
            (w.Register tmpl.ID result.Used.List ex.2,
              c2 ++ [Call.Register tmpl.ID result.Used.List])
          else (ex.2, c2)
        if result.Missing.Len > 0 then
          let added := addMissing w result.Missing.List reg.1 reg.2
          ⟨Outcome.returned { missing := true } none, added.1, added.2⟩
        else
          ⟨Outcome.returned { Complete := true, Contents := result.Output } none, reg.1, reg.2⟩

/-- The `Add` calls of a call log, in order. -/
def addCalls {D : Type} : List (Call D) → List D
  | [] => []
  | Call.Add d :: cs => d :: addCalls cs
  | _ :: cs => addCalls cs

/-- The `Register` calls of a call log, in order. -/
def registerCalls {D : Type} : List (Call D) → List (String × List D)
  | [] => []
  | Call.Register i ds :: cs => (i, ds) :: registerCalls cs
  | _ :: cs => registerCalls cs

/-- The number of `Execute` calls of a call log. -/
def executeCalls {D : Type} : List (Call D) → Nat
  | [] => 0
  | Call.Execute :: cs => executeCalls cs + 1
  | _ :: cs => executeCalls cs

/-! ### A small concrete watcher and templates

Used to evaluate `Run` on concrete inputs. Dependencies are named by their
identity string. -/

/-- State of the demonstration watcher. -/
structure DemoState where
  changed : Bool
  arrived : List String
  watched : List String
  registered : List (String × List String)
  deriving DecidableEq, Repr

/-- A watcher: `Changed` reads and resets the marker, `Add` deduplicates,
`Register` records. -/
def demoWatcher : Watcherer DemoState String where
  Add := fun d s =>
    if d ∈ s.watched then (false, s) else (true, { s with watched := s.watched ++ [d] })
  Changed := fun _ s => (s.changed, { s with changed := false })
  Register := fun i ds s => { s with registered := (i, ds) :: s.registered }

/-- A template that uses `kv.list(app)`: it is missing until the value has
arrived (and still produces some output then), and renders `hi` afterwards. -/
def demoTemplate : Templater DemoState String String where
  Execute := fun s =>
    if "kv.list(app)" ∈ s.arrived then
      ((some ⟨⟨["kv.list(app)"]⟩, ⟨[]⟩, [104, 105]⟩, none), s)
    else
      ((some ⟨⟨["kv.list(app)"]⟩, ⟨["kv.list(app)"]⟩, [63]⟩, none), s)
  ID := "t1"

/-- A template with no dependencies at all. -/
def plainTemplate : Templater DemoState String String where
  Execute := fun s => ((some ⟨⟨[]⟩, ⟨[]⟩, [111, 107]⟩, none), s)
  ID := "t2"

/-- A template whose `Execute` fails, while still handing back a result. -/
def failingTemplate : Templater DemoState String String where
  Execute := fun s => ((some ⟨⟨["kv.list(app)"]⟩, ⟨[]⟩, [120]⟩, some "boom"), s)
  ID := "t3"

/-- A poller delivers the value of `d`: it is now available and the marker is
set. -/
def deliver (d : String) (s : DemoState) : DemoState :=
  { s with arrived := d :: s.arrived, changed := true }

/-- A fresh state in which the template has never been rendered. -/
def demoStart : DemoState := ⟨true, [], [], []⟩

/-- A state in which nothing changed since the last check. -/
def demoIdle : DemoState := ⟨false, ["kv.list(app)"], ["kv.list(app)"], []⟩

/-! ## internal/dependency/kv_list.go -/

/-- A run-time panic of the Go program. -/
inductive Panic where
  | closeOfClosedChannel
  | nilDereference
  deriving DecidableEq, Repr

/-- A Go channel of `struct{}`: its capacity, the number of values waiting in
its buffer, and whether it has been closed. -/
structure Chan where
  cap : Nat
  buf : Nat
  closed : Bool
  deriving DecidableEq, Repr

/-- `make(chan struct{}, n)`: open, nothing buffered. -/
def Chan.make (n : Nat) : Chan := ⟨n, 0, false⟩

/-- `close(c)`: panics on a channel that is already closed, never blocks. -/
def Chan.close (c : Chan) : Except Panic Chan :=
  if c.closed then Except.error Panic.closeOfClosedChannel
  else Except.ok { c with closed := true }

/-- The non-blocking receive `select { case <-c: ... default: }`: the receive
case is taken when a value is buffered (which it consumes) or when the channel is
closed; otherwise the default case is. Returns whether the receive case was
taken. -/
def Chan.tryRecv (c : Chan) : Bool × Chan :=
  if c.buf > 0 then (true, { c with buf := c.buf - 1 })
  else if c.closed then (true, c)
  else (false, c)

/-- Modelled from the spec: the `QueryOptions` type is not among the source
files; the spec names its contents as "datacenter, near-node, consistency
mode". The defaults are Go's zero values. -/
structure QueryOptions where
  Datacenter : String := ""
  Near : String := ""
  AllowStale : Bool := false
  RequireConsistent : Bool := false
  deriving DecidableEq, Repr

/-- The two methods of `QueryOptions` that `Fetch` calls and that are not among
the source files, taken as parameters: `Merge` (receiver first) and
`ToConsulOpts`, whose result type `O` is the store client's option type. -/
structure QueryOptionsMethods (O : Type) where
  Merge : QueryOptions → QueryOptions → QueryOptions
  ToConsulOpts : QueryOptions → O

/-- The store's `api.KVPair`, as far as `Fetch` reads it. -/
structure KVPair where
  Key : String
  CreateIndex : Nat
  ModifyIndex : Nat
  LockIndex : Nat
  Flags : Nat
  Value : Bytes
  Session : String
  deriving DecidableEq, Repr

/-- The store's `api.QueryMeta`, as far as `Fetch` reads it. -/
structure QueryMeta where
  LastIndex : Nat
  LastContact : Int
  deriving DecidableEq, Repr

/-- `dep.ResponseMetadata`. -/
structure ResponseMetadata where
  LastIndex : Nat
  LastContact : Int
  deriving DecidableEq, Repr

/-- `KeyPair`. `Value` is a Go string holding arbitrary bytes, the result of
`string(pair.Value)`, which copies the bytes unchanged; it is kept as those
bytes. -/
structure KeyPair where
  Path : String
  Key : String
  Value : Bytes
  CreateIndex : Nat
  ModifyIndex : Nat
  LockIndex : Nat
  Flags : Nat
  Session : String
  deriving DecidableEq, Repr

/-- What `clients.Consul().KV().List(prefix, opts)` hands back: the Go triple
`(api.KVPairs, *api.QueryMeta, error)`. -/
structure ListResponse (E : Type) where
  list : List KVPair
  qm : Option QueryMeta
  err : Option E

/-- `dep.Clients`, as far as `Fetch` uses it: the store's `List` call. -/
structure Clients (O E : Type) where
  List : String → O → ListResponse E

/-- `KVListQuery`. The embedded marker `isConsul` carries no data and is left
out; the field `pfx` is the source's `prefix`, a reserved word here. The stop
channel is never `nil`: the only constructor, `NewKVListQuery`, makes it. -/
structure KVListQuery where
  stopCh : Chan
  dc : String
  pfx : String
  opts : QueryOptions
  deriving DecidableEq, Repr

/-- The error of `NewKVListQuery`: `fmt.Errorf("kv.list: invalid format: %q", s)`,
kept as its kind and the offending input. -/
inductive ParseError where
  | invalidFormat (s : String)
  deriving DecidableEq, Repr

/-- The errors `Fetch` returns: the sentinel `ErrStopped`, or
`errors.Wrap(err, message)` around the store's error. -/
inductive FetchError (E : Type) where
  | ErrStopped
  | Wrap (cause : E) (message : String)
  deriving DecidableEq, Repr

/-- Modelled from the spec: the character class of a datacenter name. The
pattern constant `dcRe` is not among the source files and the spec only says
`@datacenter`; the class taken is the one of the upstream pattern
`(@(?P<dc>[[:word:]\.\-\_]+))?`: ASCII letters, digits, `_`, `.` and `-`. -/
def isDcChar (c : Char) : Bool :=
  c.isAlphanum || c == '_' || c == '.' || c == '-'

/-- The match of `(?P<prefix>[^@]+)(@(?P<dc>...+))?\z` against `cs`: the prefix
is the longest run of characters other than `@` (a shorter run would leave a
character that neither starts the `@` group nor ends the text), it is not
empty, and what follows is nothing, or `@` and a non-empty datacenter name up
to the end of the text. Returns the `prefix` and `dc` groups. -/
def matchPrefixDc (cs : List Char) : Option (List Char × List Char) :=
  let p := cs.takeWhile (fun c => c != '@')
  if p.isEmpty then none
  else
    match cs.dropWhile (fun c => c != '@') with
    | [] => some (p, [])
    | _ :: dc => if !dc.isEmpty && dc.all isDcChar then some (p, dc) else none

/-- Modelled from the spec: `KVListQueryRe`, the compiled pattern
`\A` + `prefixRe` + `dcRe` + `\z`. The constants `prefixRe` and `dcRe` are not
among the source files; the grammar is `[/]prefix[@datacenter]` with a non-empty
prefix that holds no `@`, that is `\A/?(?P<prefix>[^@]+)(@(?P<dc>...+))?\z`.
Go's matcher prefers to let `/?` take a leading slash and falls back to leaving
it in the prefix when the rest cannot match otherwise. The result is the
submatches `prefix` and `dc` of the match, `none` when the text does not
match. -/
def KVListQueryRe (s : String) : Option (String × String) :=
  let groups : Option (List Char × List Char) :=
    match s.data with
    | '/' :: tl =>
      match matchPrefixDc tl with
      | some g => some g
      | none => matchPrefixDc s.data
    | cs => matchPrefixDc cs
  groups.map (fun g => (String.mk g.1, String.mk g.2))

/-- `KVListQueryRe.MatchString(s)`. -/
def MatchString (s : String) : Bool := (KVListQueryRe s).isSome

/-- Modelled from the spec: the helper `regexpMatch` is not among the source
files; it returns the named submatches of the pattern on `s` as a map, the
empty map when `s` does not match. -/
def regexpMatch (s : String) : List (String × String) :=
  match KVListQueryRe s with
  | some g => [("prefix", g.1), ("dc", g.2)]
  | none => []

/-- Indexing a Go `map[string]string`: a missing key reads as `""`. -/
def mapIndex (m : List (String × String)) (k : String) : String :=
  (m.lookup k).getD ""

/-- `NewKVListQuery`. -/
def NewKVListQuery (s : String) : Except ParseError KVListQuery :=
  if s ≠ "" ∧ !MatchString s then
    Except.error (ParseError.invalidFormat s)
  else
    let m := regexpMatch s
    Except.ok { stopCh := Chan.make 1, dc := mapIndex m "dc", pfx := mapIndex m "prefix", opts := {} }

/-- `KVListQuery.String`. -/
def KVListQuery.String (d : KVListQuery) : String :=
  let p := if d.dc ≠ "" then d.pfx ++ "@" ++ d.dc else d.pfx
  "kv.list(" ++ p ++ ")"

/-- `KVListQuery.CanShare`. -/
def KVListQuery.CanShare (_d : KVListQuery) : Bool := true

/-- `KVListQuery.Stop`: `close(d.stopCh)`. -/
def KVListQuery.Stop (d : KVListQuery) : Except Panic KVListQuery :=
  match d.stopCh.close with
  | Except.ok c => Except.ok { d with stopCh := c }
  | Except.error p => Except.error p

/-- `KVListQuery.SetOptions`. -/
def KVListQuery.SetOptions (d : KVListQuery) (opts : QueryOptions) : KVListQuery :=
  { d with opts := opts }

/-- `strings.TrimPrefix`. -/
def TrimPrefix (s p : String) : String :=
  if p.data.isPrefixOf s.data then String.mk (s.data.drop p.data.length) else s

/-- `strings.TrimLeft`: drops every leading character that is in `cutset`. -/
def TrimLeft (s cutset : String) : String :=
  String.mk (s.data.dropWhile (fun c => cutset.data.contains c))

/-- The body of the loop of `Fetch` that turns one store pair into a
`KeyPair`. -/
def toKeyPair (d : KVListQuery) (pair : KVPair) : KeyPair :=
  let key := TrimPrefix pair.Key d.pfx
  let key := TrimLeft key "/"
  { Path := pair.Key, Key := key, Value := pair.Value,
    CreateIndex := pair.CreateIndex, ModifyIndex := pair.ModifyIndex,
    LockIndex := pair.LockIndex, Flags := pair.Flags, Session := pair.Session }

/-- The triple `Fetch` returns: `(interface{}, *dep.ResponseMetadata, error)`. -/
structure FetchResult (E : Type) where
  value : Option (List KeyPair)
  rm : Option ResponseMetadata
  err : Option (FetchError E)
  deriving DecidableEq, Repr

/-- How a call of `Fetch` ends: it returns its triple, or panics on the `nil`
`*api.QueryMeta` of an error-free response. -/
inductive FetchOutcome (E : Type) where
  | returned (r : FetchResult E)
  | panicked (p : Panic)
  deriving DecidableEq, Repr

/-- What one call of `Fetch` amounts to: its outcome, the query afterwards (the
receive may consume from `stopCh`), and the `List` requests sent to the
store. -/
structure FetchPass (O E : Type) where
  out : FetchOutcome E
  query : KVListQuery
  requests : List (String × O)

/-- `KVListQuery.Fetch`. -/
def KVListQuery.Fetch {O E : Type} (qo : QueryOptionsMethods O) (clients : Clients O E)
    (d : KVListQuery) : FetchPass O E :=
  let rcv := d.stopCh.tryRecv
  let d1 : KVListQuery := { d with stopCh := rcv.2 }
  if rcv.1 then
    ⟨FetchOutcome.returned ⟨none, none, some FetchError.ErrStopped⟩, d1, []⟩
  else
    let opts := qo.Merge d.opts { Datacenter := d.dc }
    let copts := qo.ToConsulOpts opts
    let resp := clients.List d.pfx copts
    match resp.err with
    | some e =>
      ⟨FetchOutcome.returned ⟨none, none, some (FetchError.Wrap e d.String)⟩, d1, [(d.pfx, copts)]⟩
    | none =>
      let pairs := resp.list.map (toKeyPair d)
      match resp.qm with
      | none => ⟨FetchOutcome.panicked Panic.nilDereference, d1, [(d.pfx, copts)]⟩
      | some qm =>
        ⟨FetchOutcome.returned ⟨some pairs, some ⟨qm.LastIndex, qm.LastContact⟩, none⟩, d1,
          [(d.pfx, copts)]⟩

/-- An operation a caller may perform on a query. Each `Fetch` comes with the
client it is given, so the store may answer differently every time. -/
inductive Op (O E : Type) where
  | Fetch (clients : Clients O E)
  | SetOptions (opts : QueryOptions)
  | Stop

/-- Whether an operation is a call of `Stop`. -/
def Op.isStop {O E : Type} : Op O E → Bool
  | Op.Stop => true
  | _ => false

/-- The query after one operation. A `Stop` that panics leaves the query as it
was: a closed channel stays closed. -/
def applyOp {O E : Type} (qo : QueryOptionsMethods O) (d : KVListQuery) : Op O E → KVListQuery
  | Op.Fetch clients => (d.Fetch qo clients).query
  | Op.SetOptions opts => d.SetOptions opts
  | Op.Stop =>
    match d.Stop with
    | Except.ok d1 => d1
    | Except.error _ => d

/-- The query after a sequence of operations. -/
def applyOps {O E : Type} (qo : QueryOptionsMethods O) (d : KVListQuery) (ops : List (Op O E)) :
    KVListQuery :=
  ops.foldl (applyOp qo) d

/-- A `QueryOptions` implementation for evaluating `Fetch` on concrete inputs:
`Merge` keeps the receiver, the store's options are the options themselves. -/
def demoMethods : QueryOptionsMethods QueryOptions where
  Merge := fun q _ => q
  ToConsulOpts := fun q => q

/-- A store that holds two keys under every prefix. -/
def demoClients : Clients QueryOptions String where
  List := fun p _ =>
    ⟨[⟨p ++ "/a", 1, 2, 0, 0, [49], ""⟩, ⟨p ++ "/b", 3, 4, 0, 0, [50], ""⟩], some ⟨4, 0⟩, none⟩

/-! ### Parts of the `kv.list` dependency that live outside kv_list.go -/

/-- Modelled from the spec: `QueryOptions.Merge` is not among the source files.
The spec says the options are "merged from query-string parsing and caller
overrides; merge precedence: caller-supplied options override string-parsed
defaults". In `Fetch` the receiver is `d.opts`, the caller-supplied options, and
the argument carries what was parsed from the query string; so every field of
the result is the receiver's when the receiver sets it (it is not the zero
value) and the argument's otherwise. -/
def QueryOptions.Merge (q o : QueryOptions) : QueryOptions :=
  { Datacenter := if q.Datacenter ≠ "" then q.Datacenter else o.Datacenter,
    Near := if q.Near ≠ "" then q.Near else o.Near,
    AllowStale := if q.AllowStale then q.AllowStale else o.AllowStale,
    RequireConsistent := if q.RequireConsistent then q.RequireConsistent
      else o.RequireConsistent }

/-- The `QueryOptions` methods with `Merge` as the spec describes it;
`ToConsulOpts`, of which the spec says nothing, stays a parameter. -/
def specMethods {O : Type} (toConsulOpts : QueryOptions → O) : QueryOptionsMethods O where
  Merge := QueryOptions.Merge
  ToConsulOpts := toConsulOpts

/-- `errors.Cause` on the errors of `Fetch`: the error underneath a wrapped
one. -/
def FetchError.Cause {E : Type} : FetchError E → Option E
  | FetchError.ErrStopped => none
  | FetchError.Wrap cause _ => some cause

/-- `Error()` on the errors of `Fetch`. `text` gives the message of a store
error and `stopped` the message of the sentinel `ErrStopped`, which is declared
outside the source files; `errors.Wrap(cause, message)` reads
`message: cause`. -/
def FetchError.Error {E : Type} (text : E → String) (stopped : String) : FetchError E → String
  | FetchError.ErrStopped => stopped
  | FetchError.Wrap cause message => message ++ ": " ++ text cause

/-- A store whose `List` call fails. -/
def failingClients : Clients QueryOptions String where
  List := fun _ _ => ⟨[], none, some "connection refused"⟩

/-! ## The watcher registry

The watcher's source is not among the source files; only its tests
(`watcher_test.go`) are. -/

/-- Modelled from the spec: the `Dependency` capability the registry uses, its
identity string (`String()` in the tests, `Identity()` in the spec). -/
structure Dependency (D : Type) where
  String : D → String

/-- Modelled from the spec: the `View` that polls one dependency, "`{ dependency,
lastIndex, data, receivedData, retryFunc }`". The fetched value and the backoff
policy play no part in the registry operations and are left out. -/
structure View (D : Type) where
  dependency : D
  lastIndex : Nat
  receivedData : Bool
  deriving DecidableEq, Repr

/-- Modelled from the spec: the view a first `Add` creates for a dependency:
nothing fetched yet. Starting its poll loop is outside this model. -/
def NewView {D : Type} (d : D) : View D := ⟨d, 0, false⟩

/-- Modelled from the spec: the `Watcher` registry, "`depViewMap`: mapping
identity → View (insertion order irrelevant)". A Go map holds one entry per
key, which the association list enforces. -/
structure Watcher (D : Type) where
  depViewMap : AList (fun _ : String => View D)

/-- Modelled from the spec: `NewWatcher`, a watcher that watches nothing (the
tests expect `Size() == 0` of it). -/
def NewWatcher {D : Type} : Watcher D := ⟨∅⟩

/-- Modelled from the spec: `Watching(dep)`, the "membership test by
identity". -/
def Watcher.Watching {D : Type} (dep : Dependency D) (w : Watcher D) (d : D) : Bool :=
  decide (dep.String d ∈ w.depViewMap)

/-- Modelled from the spec: `Size()`, the "count of live Views". -/
def Watcher.Size {D : Type} (w : Watcher D) : Nat := w.depViewMap.entries.length

/-- Modelled from the spec: `add(dep) (bool, error)`: it "computes
`dep.Identity()`; if already present in the registry, returns `(false, nil)`
(shared, no new poller). Otherwise creates a View, starts its poll loop, inserts
it keyed by identity, returns `(true, nil)`". -/
def Watcher.add {D : Type} (dep : Dependency D) (w : Watcher D) (d : D) :
    (Bool × Option String) × Watcher D :=
  if dep.String d ∈ w.depViewMap then ((false, none), w)
  else ((true, none), ⟨w.depViewMap.insert (dep.String d) (NewView d)⟩)

/-- Modelled from the spec: `remove(dep) bool`: it "stops and deletes the View
for that identity if present; returns whether anything was removed". -/
def Watcher.remove {D : Type} (dep : Dependency D) (w : Watcher D) (d : D) : Bool × Watcher D :=
  if dep.String d ∈ w.depViewMap then (true, ⟨w.depViewMap.erase (dep.String d)⟩)
  else (false, w)

/-- The `kv.list` queries as dependencies: the identity is `String()`. -/
def kvListDependency : Dependency KVListQuery where
  String := KVListQuery.String

/-! ## The `catalog.service` dependency

Its source is not among the source files; only its tests
(`catalog_service_test.go`) are. -/

/-- Modelled from the spec: `CatalogServiceQuery`, with the fields the tests
name (`dc`, `name`, `near`, `tag`) and the stop channel they reset. -/
structure CatalogServiceQuery where
  stopCh : Chan
  dc : String
  name : String
  near : String
  tag : String
  deriving DecidableEq, Repr

/-- The error of `NewCatalogServiceQuery`: an invalid-format error, kept as
its kind and the offending input. -/
inductive CatalogServiceParseError where
  | invalidFormat (s : String)
  deriving DecidableEq, Repr

/-- Modelled from the spec: the character class of a service name. The spec
gives no class; the one of the upstream pattern `(?P<name>[[:word:]\-\_]+)` is
taken: ASCII letters, digits, `_` and `-`. It holds none of the separators `.`,
`@` and `~`. -/
def isNameChar (c : Char) : Bool :=
  c.isAlphanum || c == '_' || c == '-'

/-- Modelled from the spec: the character class of a tag, which "may itself
contain a colon-delimited value (e.g., `tag:value.name`)". The class of the
upstream pattern `((?P<tag>[[:word:]=:\.\-\_]+)\.)?` is taken: ASCII letters,
digits, `_`, `=`, `:`, `.` and `-`. -/
def isTagChar (c : Char) : Bool :=
  c.isAlphanum || c == '_' || c == '=' || c == ':' || c == '.' || c == '-'

/-- An optional trailing group `(sep(?P<g>[class]+))?` matched against all of
`cs`: absent (`cs` is empty, the submatch is empty), or the separator and a
non-empty run of the class. Returns the submatch. -/
def matchOptionalGroup (sep : Char) (cls : Char → Bool) (cs : List Char) : Option (List Char) :=
  match cs with
  | [] => some []
  | c :: body => if c == sep && !body.isEmpty && body.all cls then some body else none

/-- The split of `[tag.]name` at its last `.`: a name holds no `.`, so when
there is one the tag is all that stands before the last, the name what stands
after; without any the tag group is absent. -/
def splitTagName (cs : List Char) : Option (List Char) × List Char :=
  match cs.reverse.dropWhile (fun c => c != '.') with
  | [] => (none, cs)
  | _ :: tagRev => (some tagRev.reverse, (cs.reverse.takeWhile (fun c => c != '.')).reverse)

/-- The match of `[tag.]name[@datacenter][~near]` against all of `cs`. No class
holds `@` or `~`, so the `~near` group starts at the first `~` and the
`@datacenter` group at the first `@` before it; what is left is `[tag.]name`.
The name must not be empty, nor a tag, datacenter or near part that is present.
Returns the submatches `tag`, `name`, `dc` and `near`. -/
def matchCatalogService (cs : List Char) :
    Option (List Char × List Char × List Char × List Char) :=
  let front := cs.takeWhile (fun c => c != '~')
  let tn := splitTagName (front.takeWhile (fun c => c != '@'))
  match matchOptionalGroup '~' isDcChar (cs.dropWhile (fun c => c != '~')),
      matchOptionalGroup '@' isDcChar (front.dropWhile (fun c => c != '@')) with
  | some near, some dc =>
      if !tn.2.isEmpty && tn.2.all isNameChar then
        match tn.1 with
        | none => some ([], tn.2, dc, near)
        | some tag =>
          if !tag.isEmpty && tag.all isTagChar then some (tag, tn.2, dc, near) else none
      else none
  | _, _ => none

/-- Modelled from the spec: `CatalogServiceQueryRe`, the compiled pattern of
the grammar `[tag.]name[@datacenter][~near]` ("optional `tag.` prefix, required
`name`, optional `@datacenter` suffix, optional `~near` suffix (order matters:
`@dc` before `~near`)"), that is
`\A((?P<tag>...+)\.)?(?P<name>...+)(@(?P<dc>...+))?(~(?P<near>...+))?\z`. The
result is the submatches `tag`, `name`, `dc`, `near` of the match, `none` when
the text does not match. -/
def CatalogServiceQueryRe (s : String) : Option (String × String × String × String) :=
  (matchCatalogService s.data).map
    (fun g => (String.mk g.1, String.mk g.2.1, String.mk g.2.2.1, String.mk g.2.2.2))

/-- Modelled from the spec: `NewCatalogServiceQuery`: "Parsing fails with an
`InvalidFormat` error if the string does not match the compiled grammar for that
query kind"; otherwise the fields are the submatches. -/
def NewCatalogServiceQuery (s : String) : Except CatalogServiceParseError CatalogServiceQuery :=
  match CatalogServiceQueryRe s with
  | none => Except.error (CatalogServiceParseError.invalidFormat s)
  | some g =>
    Except.ok { stopCh := Chan.make 1, dc := g.2.2.1, name := g.2.1, near := g.2.2.2, tag := g.1 }

/-- Modelled from the spec: `CatalogServiceQuery.String`: the "identity string
reconstructed as `querytype(tag.name@dc~near)` using only the components
present". -/
def CatalogServiceQuery.String (d : CatalogServiceQuery) : String :=
  let name := d.name
  let name := if d.tag ≠ "" then d.tag ++ "." ++ name else name
  let name := if d.dc ≠ "" then name ++ "@" ++ d.dc else name
  let name := if d.near ≠ "" then name ++ "~" ++ d.near else name
  "catalog.service(" ++ name ++ ")"

/-- The text `[tag.]name[@dc][~near]` built from its parts, an empty part being
an absent one. -/
def catalogServiceInput (tag name dc near : String) : String :=
  (if tag ≠ "" then tag ++ "." else "") ++ name
    ++ (if dc ≠ "" then "@" ++ dc else "") ++ (if near ≠ "" then "~" ++ near else "")

/-- The canonical text of a `kv.list` query with the given prefix and
datacenter, `prefix[@dc]`: what `String()` puts between its brackets. -/
def kvListText (pfx dc : String) : String :=
  if dc ≠ "" then pfx ++ "@" ++ dc else pfx

/-! ## Theorems: resolver.go -/

section Resolver

variable {σ D E : Type}

/-- The loop over the missing dependencies leaves the state reached by the
successive `Add`s and appends one `Add` entry per element, in list order. -/
theorem addMissing_eq (w : Watcherer σ D) (ds : List D) (s : σ) (log : List (Call D)) :
    addMissing w ds s log =
      (ds.foldl (fun acc d => (w.Add d acc).2) s, log ++ ds.map Call.Add) := by
  unfold addMissing
  induction ds generalizing s log with
  | nil => simp
  | cons d ds ih => simp [List.foldl_cons, ih]

theorem addCalls_append (xs ys : List (Call D)) :
    addCalls (xs ++ ys) = addCalls xs ++ addCalls ys := by
  induction xs with
  | nil => rfl
  | cons c cs ih => cases c <;> simp [addCalls, ih]

theorem addCalls_map_Add (ds : List D) : addCalls (ds.map Call.Add) = ds := by
  induction ds with
  | nil => rfl
  | cons d ds ih => simp [addCalls, ih]

theorem registerCalls_append (xs ys : List (Call D)) :
    registerCalls (xs ++ ys) = registerCalls xs ++ registerCalls ys := by
  induction xs with
  | nil => rfl
  | cons c cs ih => cases c <;> simp [registerCalls, ih]

theorem registerCalls_map_Add (ds : List D) : registerCalls (ds.map Call.Add) = [] := by
  induction ds with
  | nil => rfl
  | cons d ds ih => simp [registerCalls, ih]

/-- `Run` when nothing changed. -/
theorem Run_unchanged (tmpl : Templater σ D E) (w : Watcherer σ D) (s : σ)
    (h : (w.Changed tmpl.ID s).1 = false) :
    Run tmpl w s = ⟨Outcome.returned {} none, (w.Changed tmpl.ID s).2, [Call.Changed tmpl.ID]⟩ := by
  simp [Run, h]

/-- `Run` when `Execute` returns an error. -/
theorem Run_execute_error (tmpl : Templater σ D E) (w : Watcherer σ D) (s : σ) (e : E)
    (hc : (w.Changed tmpl.ID s).1 = true)
    (he : (tmpl.Execute (w.Changed tmpl.ID s).2).1.2 = some e) :
    Run tmpl w s = ⟨Outcome.returned {} (some e), (tmpl.Execute (w.Changed tmpl.ID s).2).2,
      [Call.Changed tmpl.ID, Call.Execute]⟩ := by
  simp [Run, hc, he]

/-- `Run` when `Execute` succeeds and reports missing dependencies. -/
theorem Run_missing (tmpl : Templater σ D E) (w : Watcherer σ D) (s : σ)
    (result : ExecuteResult D)
    (hc : (w.Changed tmpl.ID s).1 = true)
    (he : (tmpl.Execute (w.Changed tmpl.ID s).2).1 = (some result, none))
    (hm : 0 < result.Missing.Len) :
    (Run tmpl w s).out = Outcome.returned ⟨false, [], true⟩ none ∧
    (Run tmpl w s).calls =
      [Call.Changed tmpl.ID, Call.Execute]
        ++ (if 0 < result.Used.Len then [Call.Register tmpl.ID result.Used.List] else [])
        ++ result.Missing.List.map Call.Add := by
  by_cases hu : 0 < result.Used.Len
  · simp [Run, hc, he, hm, hu, addMissing_eq]
  · simp [Run, hc, he, hm, hu, addMissing_eq]

/-- `Run` when `Execute` succeeds and reports nothing missing. -/
theorem Run_complete (tmpl : Templater σ D E) (w : Watcherer σ D) (s : σ)
    (result : ExecuteResult D)
    (hc : (w.Changed tmpl.ID s).1 = true)
    (he : (tmpl.Execute (w.Changed tmpl.ID s).2).1 = (some result, none))
    (hm : result.Missing.Len = 0) :
    (Run tmpl w s).out = Outcome.returned ⟨true, result.Output, false⟩ none ∧
    (Run tmpl w s).calls =
      [Call.Changed tmpl.ID, Call.Execute]
        ++ (if 0 < result.Used.Len then [Call.Register tmpl.ID result.Used.List] else []) := by
  by_cases hu : 0 < result.Used.Len
  · simp [Run, hc, he, hm, hu]
  · simp [Run, hc, he, hm, hu]

/-- The state `Run` leaves when `Execute` succeeds: `Register` is applied to the
state `Execute` left when the `Used` set is not empty, and then `Add` is
applied for each missing dependency, in list order. -/
theorem Run_state_of_success (tmpl : Templater σ D E) (w : Watcherer σ D) (s : σ)
    (result : ExecuteResult D)
    (hc : (w.Changed tmpl.ID s).1 = true)
    (he : (tmpl.Execute (w.Changed tmpl.ID s).2).1 = (some result, none)) :
    (Run tmpl w s).state =
      result.Missing.List.foldl (fun acc d => (w.Add d acc).2)
        (if 0 < result.Used.Len then
          w.Register tmpl.ID result.Used.List (tmpl.Execute (w.Changed tmpl.ID s).2).2
        else (tmpl.Execute (w.Changed tmpl.ID s).2).2) := by
  by_cases hm : 0 < result.Missing.Len
  · by_cases hu : 0 < result.Used.Len
    · simp [Run, hc, he, hm, hu, addMissing_eq]
    · simp [Run, hc, he, hm, hu, addMissing_eq]
  · have hnil : result.Missing.List = [] := by
      unfold DepSet.Len at hm
      unfold DepSet.List
      exact List.length_eq_zero.mp (by omega)
    by_cases hu : 0 < result.Used.Len
    · simp [Run, hc, he, hm, hu, hnil]
    · simp [Run, hc, he, hm, hu, hnil]

end Resolver

/-! ### The claims about `Resolver.Run` -/

section ResolverClaims

variable {σ D E : Type}

/-- C1: if the watcher's `Changed(tmpl.ID())` returns false, `Run` returns the
zero `ResolveEvent` (`Complete` false, `Contents` empty, `missing` false) with a
nil error; its only call is that one `Changed`: it calls neither `Execute` nor
`Register` nor `Add`, and the state is the one `Changed` left. -/
theorem C1_unchanged_returns_zero_event (tmpl : Templater σ D E) (w : Watcherer σ D) (s : σ)
    (h : (w.Changed tmpl.ID s).1 = false) :
    (Run tmpl w s).out = Outcome.returned ⟨false, [], false⟩ none ∧
    (Run tmpl w s).calls = [Call.Changed tmpl.ID] ∧
    executeCalls (Run tmpl w s).calls = 0 ∧
    registerCalls (Run tmpl w s).calls = [] ∧
    addCalls (Run tmpl w s).calls = [] ∧
    (Run tmpl w s).state = (w.Changed tmpl.ID s).2 := by
  rw [Run_unchanged tmpl w s h]
  simp [executeCalls, registerCalls, addCalls]

theorem C1_witness :
    (demoWatcher.Changed demoTemplate.ID demoIdle).1 = false ∧
    (Run demoTemplate demoWatcher demoIdle).out = Outcome.returned ⟨false, [], false⟩ none ∧
    (Run demoTemplate demoWatcher demoIdle).calls = [Call.Changed "t1"] :=
  have h := C1_unchanged_returns_zero_event demoTemplate demoWatcher demoIdle (by decide)
  ⟨by decide, h.1, h.2.1⟩

/-- C2: if `Changed` reports true and `Execute` succeeds with an empty `Missing`
set, `Run` returns a nil error and a `ResolveEvent` with `Complete` true,
`missing` false and `Contents` exactly the `Output` of the `Execute` result, and
it calls `Add` zero times. -/
theorem C2_nothing_missing_is_complete (tmpl : Templater σ D E) (w : Watcherer σ D) (s : σ)
    (result : ExecuteResult D)
    (hc : (w.Changed tmpl.ID s).1 = true)
    (he : (tmpl.Execute (w.Changed tmpl.ID s).2).1 = (some result, none))
    (hm : result.Missing.Len = 0) :
    (Run tmpl w s).out = Outcome.returned ⟨true, result.Output, false⟩ none ∧
    addCalls (Run tmpl w s).calls = [] := by
  obtain ⟨ho, hcalls⟩ := Run_complete tmpl w s result hc he hm
  refine ⟨ho, ?_⟩
  rw [hcalls]
  by_cases hu : 0 < result.Used.Len <;> simp [hu, addCalls]

theorem C2_witness :
    (demoWatcher.Changed demoTemplate.ID (deliver "kv.list(app)" demoStart)).1 = true ∧
    (Run demoTemplate demoWatcher (deliver "kv.list(app)" demoStart)).out
      = Outcome.returned ⟨true, [104, 105], false⟩ none ∧
    addCalls (Run demoTemplate demoWatcher (deliver "kv.list(app)" demoStart)).calls = [] :=
  ⟨by decide,
    C2_nothing_missing_is_complete demoTemplate demoWatcher (deliver "kv.list(app)" demoStart)
      ⟨⟨["kv.list(app)"]⟩, ⟨[]⟩, [104, 105]⟩ (by decide) (by decide) (by decide)⟩

/-- C3: if `Changed` reports true and `Execute` succeeds with a non-empty
`Missing` set, the `Add` calls of `Run` are exactly the elements of
`Missing.List()`, one call per element, in list order and after every other
call, and `Run` returns a nil error with a `ResolveEvent` whose `missing` is
true, whose `Complete` is false and whose `Contents` is empty, whatever `Output`
the `Execute` result carries. The calls take effect: the state `Run` leaves is
the one reached by applying the watcher's `Add` to each element of
`Missing.List()` in turn, starting from the state after `Execute` and, when the
`Used` set is not empty, `Register`. -/
theorem C3_missing_adds_each_and_is_incomplete (tmpl : Templater σ D E) (w : Watcherer σ D)
    (s : σ) (result : ExecuteResult D)
    (hc : (w.Changed tmpl.ID s).1 = true)
    (he : (tmpl.Execute (w.Changed tmpl.ID s).2).1 = (some result, none))
    (hm : 0 < result.Missing.Len) :
    (Run tmpl w s).out = Outcome.returned ⟨false, [], true⟩ none ∧
    addCalls (Run tmpl w s).calls = result.Missing.List ∧
    (Run tmpl w s).calls =
      [Call.Changed tmpl.ID, Call.Execute]
        ++ (if 0 < result.Used.Len then [Call.Register tmpl.ID result.Used.List] else [])
        ++ result.Missing.List.map Call.Add ∧
    (Run tmpl w s).state =
      result.Missing.List.foldl (fun acc d => (w.Add d acc).2)
        (if 0 < result.Used.Len then
          w.Register tmpl.ID result.Used.List (tmpl.Execute (w.Changed tmpl.ID s).2).2
        else (tmpl.Execute (w.Changed tmpl.ID s).2).2) := by
  obtain ⟨ho, hcalls⟩ := Run_missing tmpl w s result hc he hm
  refine ⟨ho, ?_, hcalls, Run_state_of_success tmpl w s result hc he⟩
  rw [hcalls, addCalls_append, addCalls_map_Add]
  by_cases hu : 0 < result.Used.Len <;> simp [hu, addCalls]

theorem C3_witness :
    (demoWatcher.Changed demoTemplate.ID demoStart).1 = true ∧
    (Run demoTemplate demoWatcher demoStart).out = Outcome.returned ⟨false, [], true⟩ none ∧
    addCalls (Run demoTemplate demoWatcher demoStart).calls = ["kv.list(app)"] ∧
    (Run demoTemplate demoWatcher demoStart).state
      = ⟨false, [], ["kv.list(app)"], [("t1", ["kv.list(app)"])]⟩ :=
  have h := C3_missing_adds_each_and_is_incomplete demoTemplate demoWatcher demoStart
    ⟨⟨["kv.list(app)"]⟩, ⟨["kv.list(app)"]⟩, [63]⟩ (by decide) (by decide) (by decide)
  ⟨by decide, h.1, h.2.1, h.2.2.2.trans (by decide)⟩

/-- C4: if `Changed` reports true and `Execute` returns an error `e` (whatever
result pointer comes with it), `Run` returns exactly `e` with the zero
`ResolveEvent` and calls neither `Register` nor `Add`; and no outcome of `Run`,
on any template, watcher and state, has a non-nil error together with `Complete`
true or non-empty `Contents`. -/
theorem C4_execute_error_propagates (tmpl : Templater σ D E) (w : Watcherer σ D) (s : σ) (e : E)
    (hc : (w.Changed tmpl.ID s).1 = true)
    (he : (tmpl.Execute (w.Changed tmpl.ID s).2).1.2 = some e) :
    (Run tmpl w s).out = Outcome.returned ⟨false, [], false⟩ (some e) ∧
    registerCalls (Run tmpl w s).calls = [] ∧
    addCalls (Run tmpl w s).calls = [] ∧
    (∀ (t2 : Templater σ D E) (w2 : Watcherer σ D) (s2 : σ) (ev : ResolveEvent) (e2 : E),
      (Run t2 w2 s2).out = Outcome.returned ev (some e2) →
        ev.Complete = false ∧ ev.Contents = []) := by
  rw [Run_execute_error tmpl w s e hc he]
  refine ⟨rfl, by simp [registerCalls], by simp [addCalls], ?_⟩
  intro t2 w2 s2 ev e2 h
  unfold Run at h
  by_cases hc2 : (w2.Changed t2.ID s2).1 = true
  · simp only [hc2, Bool.not_true, Bool.false_eq_true, if_false] at h
    split at h
    · simp only [Outcome.returned.injEq] at h
      rw [← h.1]
      exact ⟨rfl, rfl⟩
    · split at h
      · simp at h
      · split at h <;> simp at h
  · simp only [Bool.not_eq_true] at hc2
    simp [hc2] at h

theorem C4_witness :
    (demoWatcher.Changed failingTemplate.ID demoStart).1 = true ∧
    (Run failingTemplate demoWatcher demoStart).out
      = Outcome.returned ⟨false, [], false⟩ (some "boom") ∧
    registerCalls (Run failingTemplate demoWatcher demoStart).calls = [] ∧
    addCalls (Run failingTemplate demoWatcher demoStart).calls = [] :=
  have h := C4_execute_error_propagates failingTemplate demoWatcher demoStart "boom"
    (by decide) (by decide)
  ⟨by decide, h.1, h.2.1, h.2.2.1⟩

end ResolverClaims

section ResolverClaims2

variable {σ D E : Type}

/-- C5, as stated, fails: `plainTemplate` uses no dependency; on a pass in which
`Changed` reports true and its `Execute` succeeds, `Run` makes no `Register`
call at all, so "`Register` is called on every such pass, for every value of the
`Used` set, the empty set included" does not hold. -/
theorem C5_counterexample :
    (demoWatcher.Changed plainTemplate.ID demoStart).1 = true ∧
    (plainTemplate.Execute (demoWatcher.Changed plainTemplate.ID demoStart).2).1
      = (some ⟨⟨[]⟩, ⟨[]⟩, [111, 107]⟩, none) ∧
    registerCalls (Run plainTemplate demoWatcher demoStart).calls = [] ∧
    ¬ (∀ (tmpl : Templater DemoState String String) (w : Watcherer DemoState String)
        (s : DemoState) (result : ExecuteResult String),
        (w.Changed tmpl.ID s).1 = true →
        (tmpl.Execute (w.Changed tmpl.ID s).2).1 = (some result, none) →
        registerCalls (Run tmpl w s).calls = [(tmpl.ID, result.Used.List)]) := by
  refine ⟨by decide, by decide, by decide, ?_⟩
  intro h
  have h1 := h plainTemplate demoWatcher demoStart ⟨⟨[]⟩, ⟨[]⟩, [111, 107]⟩ (by decide) (by decide)
  revert h1
  decide

/-- C5, amended: on every pass in which `Changed` reports true and `Execute`
succeeds, `Run` calls `Register` exactly once, with the template's ID and the
full list of used dependencies, when the `Used` set is not empty, whether or not
anything is missing; when the `Used` set is empty it does not call `Register`.
The call takes effect: with a non-empty `Used` set the state `Run` leaves is the
watcher's `Register` applied to the state after `Execute`, followed by the
`Add`s for the missing dependencies; with an empty one those `Add`s start from
the state after `Execute` itself. -/
theorem C5_register_when_used_nonempty (tmpl : Templater σ D E) (w : Watcherer σ D) (s : σ)
    (result : ExecuteResult D)
    (hc : (w.Changed tmpl.ID s).1 = true)
    (he : (tmpl.Execute (w.Changed tmpl.ID s).2).1 = (some result, none)) :
    (0 < result.Used.Len →
      registerCalls (Run tmpl w s).calls = [(tmpl.ID, result.Used.List)] ∧
      (Run tmpl w s).state =
        result.Missing.List.foldl (fun acc d => (w.Add d acc).2)
          (w.Register tmpl.ID result.Used.List (tmpl.Execute (w.Changed tmpl.ID s).2).2)) ∧
    (result.Used.Len = 0 →
      registerCalls (Run tmpl w s).calls = [] ∧
      (Run tmpl w s).state =
        result.Missing.List.foldl (fun acc d => (w.Add d acc).2)
          (tmpl.Execute (w.Changed tmpl.ID s).2).2) := by
  have hstate := Run_state_of_success tmpl w s result hc he
  have hcalls : (Run tmpl w s).calls =
      [Call.Changed tmpl.ID, Call.Execute]
        ++ (if 0 < result.Used.Len then [Call.Register tmpl.ID result.Used.List] else [])
        ++ (if 0 < result.Missing.Len then result.Missing.List.map Call.Add else []) := by
    by_cases hm : 0 < result.Missing.Len
    · simp only [hm, if_true]
      exact (Run_missing tmpl w s result hc he hm).2
    · simp only [hm, if_false, List.append_nil]
      exact (Run_complete tmpl w s result hc he (by omega)).2
  have hadd : registerCalls
      (if 0 < result.Missing.Len then result.Missing.List.map Call.Add else []) = [] := by
    split
    · exact registerCalls_map_Add _
    · rfl
  rw [hcalls, registerCalls_append, registerCalls_append, hadd, hstate]
  constructor
  · intro hu
    simp [hu, registerCalls]
  · intro hu
    simp [hu, registerCalls]

theorem C5_witness :
    (demoWatcher.Changed demoTemplate.ID demoStart).1 = true ∧
    registerCalls (Run demoTemplate demoWatcher demoStart).calls
      = [("t1", ["kv.list(app)"])] ∧
    (Run demoTemplate demoWatcher (deliver "kv.list(app)" demoStart)).state
      = ⟨false, ["kv.list(app)"], [], [("t1", ["kv.list(app)"])]⟩ ∧
    registerCalls (Run demoTemplate demoWatcher (deliver "kv.list(app)" demoStart)).calls
      = [("t1", ["kv.list(app)"])] ∧
    registerCalls (Run plainTemplate demoWatcher demoStart).calls = [] ∧
    (Run plainTemplate demoWatcher demoStart).state = ⟨false, [], [], []⟩ :=
  have h1 := (C5_register_when_used_nonempty demoTemplate demoWatcher demoStart
    ⟨⟨["kv.list(app)"]⟩, ⟨["kv.list(app)"]⟩, [63]⟩ (by decide) (by decide)).1 (by decide)
  have h2 := (C5_register_when_used_nonempty demoTemplate demoWatcher
    (deliver "kv.list(app)" demoStart)
    ⟨⟨["kv.list(app)"]⟩, ⟨[]⟩, [104, 105]⟩ (by decide) (by decide)).1 (by decide)
  have h3 := (C5_register_when_used_nonempty plainTemplate demoWatcher demoStart
    ⟨⟨[]⟩, ⟨[]⟩, [111, 107]⟩ (by decide) (by decide)).2 (by decide)
  ⟨by decide, h1.1, h2.2.trans (by decide), h2.1, h3.1, h3.2.trans (by decide)⟩

/-- C6: resolver convergence. Take a template whose first `Execute` reports
exactly one missing dependency `d`; let anything happen to the state after the
first `Run` (`arrive`: the poller delivers the value of `d`), so that `Changed`
reports true again and the second `Execute` reports nothing missing with output
`o`. Then the first `Run` returns `missing` true, `Complete` false and a nil
error, having called `Add` for `d` and nothing else, and the second `Run`
returns `Complete` true with `Contents` equal to `o` and a nil error. The
`Add` takes effect: the state the first `Run` leaves is the watcher's `Add d`
applied to the state after `Execute` and, when the `Used` set is not empty,
`Register`. -/
theorem C6_two_runs_converge (tmpl : Templater σ D E) (w : Watcherer σ D) (s0 : σ)
    (arrive : σ → σ) (r1 r2 : ExecuteResult D) (d : D) (o : Bytes)
    (h1c : (w.Changed tmpl.ID s0).1 = true)
    (h1e : (tmpl.Execute (w.Changed tmpl.ID s0).2).1 = (some r1, none))
    (h1m : r1.Missing.List = [d])
    (h2c : (w.Changed tmpl.ID (arrive (Run tmpl w s0).state)).1 = true)
    (h2e : (tmpl.Execute (w.Changed tmpl.ID (arrive (Run tmpl w s0).state)).2).1
      = (some r2, none))
    (h2m : r2.Missing.Len = 0)
    (h2o : r2.Output = o) :
    (Run tmpl w s0).out = Outcome.returned ⟨false, [], true⟩ none ∧
    addCalls (Run tmpl w s0).calls = [d] ∧
    (Run tmpl w (arrive (Run tmpl w s0).state)).out = Outcome.returned ⟨true, o, false⟩ none ∧
    (Run tmpl w s0).state =
      (w.Add d
        (if 0 < r1.Used.Len then
          w.Register tmpl.ID r1.Used.List (tmpl.Execute (w.Changed tmpl.ID s0).2).2
        else (tmpl.Execute (w.Changed tmpl.ID s0).2).2)).2 := by
  have hm : 0 < r1.Missing.Len := by
    have : r1.Missing.Len = 1 := by
      unfold DepSet.Len
      unfold DepSet.List at h1m
      rw [h1m]
      rfl
    omega
  obtain ⟨ho, hcalls⟩ := Run_missing tmpl w s0 r1 h1c h1e hm
  refine ⟨ho, ?_, ?_, ?_⟩
  · rw [hcalls, addCalls_append, addCalls_map_Add, h1m]
    by_cases hu : 0 < r1.Used.Len <;> simp [hu, addCalls]
  · rw [← h2o]
    exact (Run_complete tmpl w _ r2 h2c h2e h2m).1
  · rw [Run_state_of_success tmpl w s0 r1 h1c h1e, h1m]
    rfl

theorem C6_witness :
    (Run demoTemplate demoWatcher demoStart).out = Outcome.returned ⟨false, [], true⟩ none ∧
    addCalls (Run demoTemplate demoWatcher demoStart).calls = ["kv.list(app)"] ∧
    (Run demoTemplate demoWatcher
        (deliver "kv.list(app)" (Run demoTemplate demoWatcher demoStart).state)).out
      = Outcome.returned ⟨true, [104, 105], false⟩ none ∧
    (Run demoTemplate demoWatcher demoStart).state
      = ⟨false, [], ["kv.list(app)"], [("t1", ["kv.list(app)"])]⟩ :=
  have h := C6_two_runs_converge demoTemplate demoWatcher demoStart (deliver "kv.list(app)")
    ⟨⟨["kv.list(app)"]⟩, ⟨["kv.list(app)"]⟩, [63]⟩ ⟨⟨["kv.list(app)"]⟩, ⟨[]⟩, [104, 105]⟩
    "kv.list(app)" [104, 105]
    (by decide) (by decide) (by decide) (by decide) (by decide) (by decide) (by decide)
  ⟨h.1, h.2.1, h.2.2.1, h.2.2.2.trans (by decide)⟩

/-- C7, as stated, fails: in `demoIdle` the value of the one dependency of
`demoTemplate` has arrived, so its `Execute` would report nothing missing, and
`Changed` reports false; `Run` then returns the zero `ResolveEvent`, whose
`Complete` is false, not true. -/
theorem C7_counterexample :
    (demoWatcher.Changed demoTemplate.ID demoIdle).1 = false ∧
    (demoTemplate.Execute (demoWatcher.Changed demoTemplate.ID demoIdle).2).1
      = (some ⟨⟨["kv.list(app)"]⟩, ⟨[]⟩, [104, 105]⟩, none) ∧
    (Run demoTemplate demoWatcher demoIdle).out = Outcome.returned ⟨false, [], false⟩ none ∧
    ¬ (∃ (ev : ResolveEvent) (err : Option String),
        (Run demoTemplate demoWatcher demoIdle).out = Outcome.returned ev err ∧
        ev.Complete = true) := by
  refine ⟨by decide, by decide, by decide, ?_⟩
  rintro ⟨ev, err, h, hcomplete⟩
  have h0 : (Run demoTemplate demoWatcher demoIdle).out
      = Outcome.returned ⟨false, [], false⟩ none := by decide
  rw [h0] at h
  simp only [Outcome.returned.injEq] at h
  rw [← h.1] at hcomplete
  exact Bool.noConfusion hcomplete

/-- C7, amended: `Run` does not treat the two cases alike. When `Changed`
reports false it returns the zero `ResolveEvent`, with `Complete` false, without
calling `Execute`, whatever `Execute` would report. When `Changed` reports true
and `Execute` succeeds with nothing missing, in particular for a template with
no dependencies at all, it returns `Complete` true with the rendered output. -/
theorem C7_complete_only_when_changed (tmpl : Templater σ D E) (w : Watcherer σ D) (s : σ) :
    ((w.Changed tmpl.ID s).1 = false →
      (Run tmpl w s).out = Outcome.returned ⟨false, [], false⟩ none ∧
      executeCalls (Run tmpl w s).calls = 0) ∧
    (∀ result : ExecuteResult D,
      (w.Changed tmpl.ID s).1 = true →
      (tmpl.Execute (w.Changed tmpl.ID s).2).1 = (some result, none) →
      result.Missing.Len = 0 →
      (Run tmpl w s).out = Outcome.returned ⟨true, result.Output, false⟩ none) := by
  constructor
  · intro h
    rw [Run_unchanged tmpl w s h]
    exact ⟨rfl, rfl⟩
  · intro result hc he hm
    exact (Run_complete tmpl w s result hc he hm).1

theorem C7_witness :
    ((Run demoTemplate demoWatcher demoIdle).out = Outcome.returned ⟨false, [], false⟩ none ∧
      executeCalls (Run demoTemplate demoWatcher demoIdle).calls = 0) ∧
    (Run plainTemplate demoWatcher demoStart).out
      = Outcome.returned ⟨true, [111, 107], false⟩ none :=
  ⟨(C7_complete_only_when_changed demoTemplate demoWatcher demoIdle).1 (by decide),
    (C7_complete_only_when_changed plainTemplate demoWatcher demoStart).2
      ⟨⟨[]⟩, ⟨[]⟩, [111, 107]⟩ (by decide) (by decide) (by decide)⟩

end ResolverClaims2

/-! ## Theorems: kv_list.go -/

section KVList

variable {O E : Type}

/-- A query returned by `NewKVListQuery` has a fresh stop channel and zero
options. -/
theorem NewKVListQuery_fresh (s : String) (d : KVListQuery) (h : NewKVListQuery s = Except.ok d) :
    d.stopCh = ⟨1, 0, false⟩ ∧ d.opts = {} := by
  unfold NewKVListQuery at h
  split at h
  · exact Except.noConfusion h
  · injection h with h
    subst h
    exact ⟨rfl, rfl⟩

/-- Once the stop channel is closed, no operation opens it again. -/
theorem applyOp_closed (qo : QueryOptionsMethods O) (d : KVListQuery) (op : Op O E)
    (h : d.stopCh.closed = true) : (applyOp qo d op).stopCh.closed = true := by
  cases op with
  | Fetch clients =>
    simp only [applyOp, KVListQuery.Fetch, Chan.tryRecv, h]
    split <;> simp [h]
  | SetOptions opts => simpa [applyOp, KVListQuery.SetOptions] using h
  | Stop => simp [applyOp, KVListQuery.Stop, Chan.close, h]

theorem applyOps_closed (qo : QueryOptionsMethods O) (ops : List (Op O E)) (d : KVListQuery)
    (h : d.stopCh.closed = true) : (applyOps qo d ops).stopCh.closed = true := by
  induction ops generalizing d with
  | nil => simpa [applyOps] using h
  | cons op ops ih =>
    simp only [applyOps, List.foldl_cons]
    exact ih _ (applyOp_closed qo d op h)

/-- After a call of `Stop`, whether it returned or panicked, the stop channel
is closed. -/
theorem applyOp_Stop_closed (qo : QueryOptionsMethods O) (d : KVListQuery) :
    (applyOp qo d (Op.Stop : Op O E)).stopCh.closed = true := by
  by_cases h : d.stopCh.closed = true
  · simp [applyOp, KVListQuery.Stop, Chan.close, h]
  · simp only [Bool.not_eq_true] at h
    simp [applyOp, KVListQuery.Stop, Chan.close, h]

/-- `Fetch` on a query whose stop channel is closed. -/
theorem Fetch_closed (qo : QueryOptionsMethods O) (clients : Clients O E) (d : KVListQuery)
    (h : d.stopCh.closed = true) :
    (d.Fetch qo clients).out = FetchOutcome.returned ⟨none, none, some FetchError.ErrStopped⟩ ∧
    (d.Fetch qo clients).requests = [] := by
  have hr : d.stopCh.tryRecv.1 = true := by
    unfold Chan.tryRecv
    split <;> simp [h]
  simp [KVListQuery.Fetch, hr]

/-- `Fetch` on a query whose stop channel is open and empty takes the default
case of the `select`: it leaves the query as it is, sends one `List` request,
and its outcome is not `ErrStopped`. -/
theorem Fetch_open (qo : QueryOptionsMethods O) (clients : Clients O E) (d : KVListQuery)
    (hc : d.stopCh.closed = false) (hb : d.stopCh.buf = 0) :
    (d.Fetch qo clients).query = d ∧
    (d.Fetch qo clients).requests
      = [(d.pfx, qo.ToConsulOpts (qo.Merge d.opts { Datacenter := d.dc }))] ∧
    (∀ r, (d.Fetch qo clients).out = FetchOutcome.returned r →
      r.err ≠ some FetchError.ErrStopped) := by
  have hr : d.stopCh.tryRecv = (false, d.stopCh) := by
    simp [Chan.tryRecv, hc, hb]
  simp only [KVListQuery.Fetch, hr]
  simp only [Bool.false_eq_true, if_false]
  split
  · refine ⟨rfl, rfl, ?_⟩
    intro r hrr
    injection hrr with hrr
    rw [← hrr]
    simp
  · split
    · refine ⟨rfl, rfl, ?_⟩
      intro r hrr
      exact FetchOutcome.noConfusion hrr
    · refine ⟨rfl, rfl, ?_⟩
      intro r hrr
      injection hrr with hrr
      rw [← hrr]
      simp

/-- Operations other than `Stop` keep an open, empty stop channel open and
empty. -/
theorem applyOps_open (qo : QueryOptionsMethods O) (ops : List (Op O E)) (d : KVListQuery)
    (hns : ∀ op ∈ ops, op.isStop = false)
    (hc : d.stopCh.closed = false) (hb : d.stopCh.buf = 0) :
    (applyOps qo d ops).stopCh.closed = false ∧ (applyOps qo d ops).stopCh.buf = 0 := by
  induction ops generalizing d with
  | nil => exact ⟨hc, hb⟩
  | cons op ops ih =>
    simp only [applyOps, List.foldl_cons]
    have hrest : ∀ op2 ∈ ops, op2.isStop = false := fun op2 h2 =>
      hns op2 (List.mem_cons_of_mem _ h2)
    have hop : op.isStop = false := hns op (List.mem_cons_self _ _)
    cases op with
    | Fetch clients =>
      have hq := (Fetch_open qo clients d hc hb).1
      simp only [applyOp, hq]
      exact ih d hrest hc hb
    | SetOptions opts =>
      exact ih _ hrest (by simpa [KVListQuery.SetOptions] using hc)
        (by simpa [KVListQuery.SetOptions] using hb)
    | Stop => simp [Op.isStop] at hop

end KVList

section KVListClaims

variable {O E : Type}

/-- A text that starts with `@` does not match `KVListQueryRe`: the prefix
would be empty. -/
theorem MatchString_at (dc : String) : MatchString ("@" ++ dc) = false := by
  have hd : ("@" ++ dc).data = '@' :: dc.data := by
    rw [String.data_append]
    rfl
  simp [MatchString, KVListQueryRe, hd, matchPrefixDc]

/-- C8, as stated, fails: on the query parsed from `foo` the first `Stop()`
returns and closes the stop channel, and the second `Stop()` panics with "close
of closed channel"; it is not a no-op. -/
theorem C8_counterexample :
    NewKVListQuery "foo" = Except.ok ⟨⟨1, 0, false⟩, "", "foo", {}⟩ ∧
    (KVListQuery.mk ⟨1, 0, false⟩ "" "foo" {}).Stop = Except.ok ⟨⟨1, 0, true⟩, "", "foo", {}⟩ ∧
    (KVListQuery.mk ⟨1, 0, true⟩ "" "foo" {}).Stop = Except.error Panic.closeOfClosedChannel ∧
    ¬ (∀ (s : String) (d d1 : KVListQuery),
        NewKVListQuery s = Except.ok d → d.Stop = Except.ok d1 → d1.Stop = Except.ok d1) := by
  refine ⟨rfl, rfl, rfl, ?_⟩
  intro h
  have h1 := h "foo" ⟨⟨1, 0, false⟩, "", "foo", {}⟩ ⟨⟨1, 0, true⟩, "", "foo", {}⟩ rfl rfl
  exact Except.noConfusion h1

/-- C8, amended: `Stop` is not idempotent. On every query returned by
`NewKVListQuery` the first `Stop()` returns without panicking or blocking and
leaves the query stopped (stop channel closed, the other fields as they were); a
second `Stop()` on that stopped query panics with "close of closed channel". -/
theorem C8_stop_once_then_panics (s : String) (d : KVListQuery)
    (h : NewKVListQuery s = Except.ok d) :
    d.Stop = Except.ok { d with stopCh := ⟨1, 0, true⟩ } ∧
    ({ d with stopCh := ⟨1, 0, true⟩ } : KVListQuery).Stop
      = Except.error Panic.closeOfClosedChannel := by
  have hf := (NewKVListQuery_fresh s d h).1
  constructor
  · simp [KVListQuery.Stop, Chan.close, hf]
  · simp [KVListQuery.Stop, Chan.close]

theorem C8_witness :
    NewKVListQuery "foo@dc1" = Except.ok ⟨⟨1, 0, false⟩, "dc1", "foo", {}⟩ ∧
    (KVListQuery.mk ⟨1, 0, false⟩ "dc1" "foo" {}).Stop
      = Except.ok ⟨⟨1, 0, true⟩, "dc1", "foo", {}⟩ ∧
    (KVListQuery.mk ⟨1, 0, true⟩ "dc1" "foo" {}).Stop
      = Except.error Panic.closeOfClosedChannel :=
  have h := C8_stop_once_then_panics "foo@dc1" ⟨⟨1, 0, false⟩, "dc1", "foo", {}⟩ rfl
  ⟨rfl, h.1, h.2⟩

/-- C9: a query returned by `NewKVListQuery` on which `Stop()` was never called
(only `Fetch` and `SetOptions`, in any number and order) does not take the
stopped exit of `Fetch`: the call sends its `List` request and what it returns
is not `ErrStopped`. And for every query at all, once `Stop()` has been called
on it, every later `Fetch`, whatever calls come in between, returns
`ErrStopped` with a nil value and nil metadata and sends no `List` request. -/
theorem C9_stopped_fetch_returns_ErrStopped (qo : QueryOptionsMethods O) (clients : Clients O E)
    (s : String) (d : KVListQuery) (ops : List (Op O E))
    (h : NewKVListQuery s = Except.ok d)
    (hns : ∀ op ∈ ops, op.isStop = false) :
    ((∀ r, ((applyOps qo d ops).Fetch qo clients).out = FetchOutcome.returned r →
        r.err ≠ some FetchError.ErrStopped) ∧
      ((applyOps qo d ops).Fetch qo clients).requests.length = 1) ∧
    (∀ (d0 : KVListQuery) (before later : List (Op O E)),
      ((applyOps qo d0 (before ++ Op.Stop :: later)).Fetch qo clients).out
        = FetchOutcome.returned ⟨none, none, some FetchError.ErrStopped⟩ ∧
      ((applyOps qo d0 (before ++ Op.Stop :: later)).Fetch qo clients).requests = []) := by
  have hf := (NewKVListQuery_fresh s d h).1
  have hopen := applyOps_open qo ops d hns (by rw [hf]) (by rw [hf])
  have hfo := Fetch_open qo clients (applyOps qo d ops) hopen.1 hopen.2
  refine ⟨⟨hfo.2.2, by rw [hfo.2.1]; rfl⟩, ?_⟩
  intro d0 before later
  apply Fetch_closed
  have : applyOps qo d0 (before ++ Op.Stop :: later)
      = applyOps qo (applyOp qo (applyOps qo d0 before) (Op.Stop : Op O E)) later := by
    simp [applyOps, List.foldl_append]
  rw [this]
  exact applyOps_closed qo later _ (applyOp_Stop_closed qo _)

theorem C9_witness :
    NewKVListQuery "foo" = Except.ok ⟨⟨1, 0, false⟩, "", "foo", {}⟩ ∧
    ((applyOps demoMethods (KVListQuery.mk ⟨1, 0, false⟩ "" "foo" {})
        [Op.SetOptions {}, Op.Fetch demoClients]).Fetch demoMethods demoClients).requests.length
      = 1 ∧
    ((applyOps demoMethods (KVListQuery.mk ⟨1, 0, false⟩ "" "foo" {})
        ([Op.Fetch demoClients] ++ Op.Stop :: [Op.SetOptions {}, Op.Stop,
          Op.Fetch demoClients])).Fetch demoMethods demoClients).out
      = FetchOutcome.returned ⟨none, none, some FetchError.ErrStopped⟩ :=
  have h := C9_stopped_fetch_returns_ErrStopped demoMethods demoClients "foo"
    ⟨⟨1, 0, false⟩, "", "foo", {}⟩ [Op.SetOptions {}, Op.Fetch demoClients] rfl
    (by intro op hop; simp at hop; rcases hop with rfl | rfl <;> rfl)
  ⟨rfl, h.1.2, (h.2 _ [Op.Fetch demoClients] [Op.SetOptions {}, Op.Stop, Op.Fetch demoClients]).1⟩

/-- C10, as stated, fails: the empty string does not match `KVListQueryRe`, yet
`NewKVListQuery ""` returns a query (empty prefix, empty datacenter) and a nil
error. -/
theorem C10_counterexample :
    MatchString "" = false ∧
    NewKVListQuery "" = Except.ok ⟨⟨1, 0, false⟩, "", "", {}⟩ ∧
    ¬ (∀ s : String, MatchString s = false →
        NewKVListQuery s = Except.error (ParseError.invalidFormat s)) := by
  refine ⟨by decide, rfl, ?_⟩
  intro h
  have h1 := h "" (by decide)
  exact Except.noConfusion h1

/-- C10, amended: `NewKVListQuery` returns no query and an invalid-format error
for every non-empty string that does not match `KVListQueryRe`, in particular
for every string that starts with `@`, such as a bare `@dc`; the empty string
is let through before the pattern is tried and yields a query with empty prefix
and datacenter and a nil error. -/
theorem C10_nonempty_nonmatching_is_rejected (s : String)
    (hne : s ≠ "") (hm : MatchString s = false) :
    NewKVListQuery s = Except.error (ParseError.invalidFormat s) ∧
    (∀ dc : String,
      NewKVListQuery ("@" ++ dc) = Except.error (ParseError.invalidFormat ("@" ++ dc))) ∧
    NewKVListQuery "" = Except.ok ⟨⟨1, 0, false⟩, "", "", {}⟩ := by
  refine ⟨by simp [NewKVListQuery, hne, hm], ?_, rfl⟩
  intro dc
  have hne2 : "@" ++ dc ≠ "" := by
    intro h0
    have := congrArg String.data h0
    rw [String.data_append] at this
    simp at this
  simp [NewKVListQuery, hne2, MatchString_at dc]

theorem C10_witness :
    "foo@" ≠ "" ∧ MatchString "foo@" = false ∧
    NewKVListQuery "foo@" = Except.error (ParseError.invalidFormat "foo@") ∧
    NewKVListQuery ("@" ++ "dc") = Except.error (ParseError.invalidFormat ("@" ++ "dc")) :=
  have h := C10_nonempty_nonmatching_is_rejected "foo@" (by decide) (by decide)
  ⟨by decide, by decide, h.1, h.2.1 "dc"⟩

end KVListClaims

/-! ## Theorems: the `kv.list` grammar and identity -/

section KVListGrammar

/-- What is left after dropping the characters other than a separator starts
with that separator. -/
theorem dropWhile_head_eq {cs rest : List Char} {x sep : Char}
    (h : cs.dropWhile (fun c => c != sep) = x :: rest) : x = sep := by
  have hne : cs.dropWhile (fun c => c != sep) ≠ [] := by rw [h]; simp
  have hx := List.head_dropWhile_not (fun c => c != sep) cs hne
  simp only [h, List.head_cons] at hx
  simpa using hx

/-- What a match of `matchPrefixDc` says about the text: it is the prefix
followed by nothing or by `@` and a non-empty datacenter, and the prefix is not
empty and holds no `@`. -/
theorem matchPrefixDc_some {cs p dc : List Char} (h : matchPrefixDc cs = some (p, dc)) :
    cs = p ++ (if dc = [] then [] else '@' :: dc) ∧ p ≠ [] ∧ (∀ c ∈ p, c ≠ '@') := by
  unfold matchPrefixDc at h
  simp only at h
  split at h
  · exact Option.noConfusion h
  · rename_i hp
    have hsplit := List.takeWhile_append_dropWhile (fun c => c != '@') cs
    have hmem : ∀ c ∈ cs.takeWhile (fun c => c != '@'), c ≠ '@' := by
      intro c hc
      have := List.mem_takeWhile_imp hc
      simpa using this
    split at h
    · rename_i hd
      simp only [Option.some.injEq, Prod.mk.injEq] at h
      obtain ⟨h1, h2⟩ := h
      subst h1 h2
      refine ⟨?_, by simpa using hp, hmem⟩
      rw [hd, List.append_nil] at hsplit
      simp [hsplit]
    · rename_i x dc0 hd
      split at h
      · rename_i hcond
        simp only [Option.some.injEq, Prod.mk.injEq] at h
        obtain ⟨h1, h2⟩ := h
        subst h1 h2
        have hx : x = '@' := dropWhile_head_eq hd
        subst hx
        have hne : dc0 ≠ [] := by
          intro h0
          simp [h0] at hcond
        refine ⟨?_, by simpa using hp, hmem⟩
        rw [hd] at hsplit
        simp [hne, hsplit]
      · exact Option.noConfusion h

/-- What a match of `KVListQueryRe` says about the text: it is the prefix and
datacenter submatches put together again, possibly after one `/` that belongs
to neither. -/
theorem KVListQueryRe_some {s p dc : String} (h : KVListQueryRe s = some (p, dc)) :
    (s.data = p.data ++ (if dc.data = [] then [] else '@' :: dc.data) ∨
      s.data = '/' :: (p.data ++ (if dc.data = [] then [] else '@' :: dc.data))) ∧
    p.data ≠ [] ∧ (∀ c ∈ p.data, c ≠ '@') := by
  unfold KVListQueryRe at h
  simp only [Option.map_eq_some', Prod.mk.injEq] at h
  obtain ⟨g, hg, hp, hdc⟩ := h
  subst hp hdc
  obtain ⟨gp, gdc⟩ := g
  simp only
  split at hg
  · rename_i tl hs
    split at hg
    · rename_i g2 hm
      simp only [Option.some.injEq] at hg
      subst hg
      obtain ⟨h1, h2, h3⟩ := matchPrefixDc_some hm
      refine ⟨Or.inr ?_, h2, h3⟩
      rw [hs, h1]
    · obtain ⟨h1, h2, h3⟩ := matchPrefixDc_some hg
      exact ⟨Or.inl h1, h2, h3⟩
  · obtain ⟨h1, h2, h3⟩ := matchPrefixDc_some hg
    exact ⟨Or.inl h1, h2, h3⟩

/-- What `NewKVListQuery` returns on success: for the empty string empty
fields, otherwise the submatches of the pattern. -/
theorem NewKVListQuery_ok {s : String} {q : KVListQuery} (h : NewKVListQuery s = Except.ok q) :
    (s = "" ∧ q.pfx = "" ∧ q.dc = "") ∨ KVListQueryRe s = some (q.pfx, q.dc) := by
  unfold NewKVListQuery at h
  split at h
  · exact Except.noConfusion h
  · rename_i hcond
    injection h with h
    subst h
    cases hre : KVListQueryRe s with
    | none =>
      left
      have hm : MatchString s = false := by simp [MatchString, hre]
      have hs : s = "" := by
        by_contra hne
        exact hcond ⟨hne, by simp [hm]⟩
      refine ⟨hs, ?_, ?_⟩ <;> simp [regexpMatch, hre, mapIndex]
    | some g =>
      right
      have h1 : mapIndex (regexpMatch s) "prefix" = g.1 := by
        simp [regexpMatch, hre, mapIndex, List.lookup]
      have h2 : mapIndex (regexpMatch s) "dc" = g.2 := by
        have hk : ("dc" == "prefix") = false := by decide
        simp [regexpMatch, hre, mapIndex, List.lookup, hk]
      simp [h1, h2]

/-- The text between the brackets of `String()`, as characters. -/
theorem KVListQuery_String_data (d : KVListQuery) :
    d.String.data = "kv.list(".data
      ++ (d.pfx.data ++ (if d.dc.data = [] then [] else '@' :: d.dc.data)) ++ [')'] := by
  unfold KVListQuery.String
  by_cases hdc : d.dc = ""
  · simp [hdc]
  · have hne : d.dc.data ≠ [] := fun h0 => hdc (String.ext h0)
    simp only [ne_eq, hdc, not_false_eq_true, if_true, hne, if_false, String.data_append]
    simp

end KVListGrammar

section KVListIdentityClaims

theorem kvListText_data (p dc : String) :
    (kvListText p dc).data = p.data ++ (if dc.data = [] then [] else '@' :: dc.data) := by
  unfold kvListText
  by_cases hdc : dc = ""
  · simp [hdc]
  · have hne : dc.data ≠ [] := fun h0 => hdc (String.ext h0)
    simp only [ne_eq, hdc, not_false_eq_true, if_true, hne, if_false, String.data_append]
    simp

theorem KVListQuery_String_eq (d : KVListQuery) :
    d.String = "kv.list(" ++ kvListText d.pfx d.dc ++ ")" := rfl

/-- The prefix of a parsed query holds no `@`. -/
theorem NewKVListQuery_pfx_no_at {s : String} {q : KVListQuery}
    (h : NewKVListQuery s = Except.ok q) : ∀ c ∈ q.pfx.data, c ≠ '@' := by
  rcases NewKVListQuery_ok h with ⟨_, hp, _⟩ | hre
  · rw [hp]
    intro c hc
    simp at hc
  · exact (KVListQueryRe_some hre).2.2

/-- A text `prefix[@dc]` whose prefix holds no `@` splits in one way only. -/
theorem prefix_dc_unique {p1 p2 d1 d2 : List Char}
    (hp1 : ∀ c ∈ p1, c ≠ '@') (hp2 : ∀ c ∈ p2, c ≠ '@')
    (h : p1 ++ (if d1 = [] then [] else '@' :: d1) = p2 ++ (if d2 = [] then [] else '@' :: d2)) :
    p1 = p2 ∧ d1 = d2 := by
  have key : ∀ (p d : List Char), (∀ c ∈ p, c ≠ '@') →
      (p ++ (if d = [] then [] else '@' :: d)).takeWhile (fun c => c != '@') = p := by
    intro p d hp
    rw [List.takeWhile_append_of_pos (by intro a ha; simpa using hp a ha)]
    by_cases hd : d = []
    · simp [hd]
    · simp [hd]
  have e1 := key p1 d1 hp1
  have e2 := key p2 d2 hp2
  rw [h, e2] at e1
  subst e1
  have h2 := List.append_cancel_left h
  refine ⟨rfl, ?_⟩
  by_cases hd1 : d1 = [] <;> by_cases hd2 : d2 = []
  · rw [hd1, hd2]
  · simp [hd1, hd2] at h2
  · simp [hd1, hd2] at h2
  · simpa [hd1, hd2] using h2

/-- C11, as stated, fails: `NewKVListQuery` accepts `/foo`, the parsed prefix
is `foo`, and `String()` is `kv.list(foo)`, which is not `kv.list(/foo)`: the
leading slash the pattern allows is not part of the prefix and is not put
back. -/
theorem C11_counterexample :
    NewKVListQuery "/foo" = Except.ok ⟨⟨1, 0, false⟩, "", "foo", {}⟩ ∧
    (KVListQuery.mk ⟨1, 0, false⟩ "" "foo" {}).String = "kv.list(foo)" ∧
    "kv.list(foo)" ≠ "kv.list(" ++ "/foo" ++ ")" ∧
    ¬ (∀ (s : String) (q : KVListQuery),
        NewKVListQuery s = Except.ok q → q.String = "kv.list(" ++ s ++ ")") := by
  refine ⟨rfl, by decide, by decide, ?_⟩
  intro h
  have h1 := h "/foo" ⟨⟨1, 0, false⟩, "", "foo", {}⟩ rfl
  revert h1
  decide

/-- C11, amended: for every string `s` that `NewKVListQuery` accepts, the parsed
prefix and datacenter are substrings of `s`: `s` is `prefix[@dc]`, or one `/`
followed by `prefix[@dc]`; `String()` is `kv.list(prefix[@dc])`. So `String()`
gives back `kv.list(s)` when no leading slash was stripped, in particular
whenever `s` does not start with `/`, and `kv.list(s without its first
character)` when one was. -/
theorem C11_round_trip_up_to_leading_slash (s : String) (q : KVListQuery)
    (h : NewKVListQuery s = Except.ok q) :
    (s = kvListText q.pfx q.dc ∨ s = "/" ++ kvListText q.pfx q.dc) ∧
    q.String = "kv.list(" ++ kvListText q.pfx q.dc ++ ")" ∧
    (s = kvListText q.pfx q.dc → q.String = "kv.list(" ++ s ++ ")") ∧
    (s.data.head? ≠ some '/' → q.String = "kv.list(" ++ s ++ ")") := by
  have hsplit : s = kvListText q.pfx q.dc ∨ s = "/" ++ kvListText q.pfx q.dc := by
    rcases NewKVListQuery_ok h with ⟨hs, hp, hd⟩ | hre
    · left
      rw [hs, hp, hd]
      rfl
    · rcases (KVListQueryRe_some hre).1 with h1 | h1
      · left
        apply String.ext
        rw [kvListText_data, h1]
      · right
        apply String.ext
        rw [String.data_append, kvListText_data, h1]
        rfl
  refine ⟨hsplit, KVListQuery_String_eq q, ?_, ?_⟩
  · intro hs
    rw [KVListQuery_String_eq, ← hs]
  · intro hhead
    rcases hsplit with hs | hs
    · rw [KVListQuery_String_eq, ← hs]
    · exfalso
      apply hhead
      rw [hs, String.data_append]
      rfl

theorem C11_witness :
    NewKVListQuery "app/config@dc1" = Except.ok ⟨⟨1, 0, false⟩, "dc1", "app/config", {}⟩ ∧
    "app/config@dc1" = kvListText "app/config" "dc1" ∧
    (KVListQuery.mk ⟨1, 0, false⟩ "dc1" "app/config" {}).String
      = "kv.list(" ++ "app/config@dc1" ++ ")" :=
  have h := C11_round_trip_up_to_leading_slash "app/config@dc1"
    ⟨⟨1, 0, false⟩, "dc1", "app/config", {}⟩ rfl
  ⟨rfl, by decide, h.2.2.2 (by decide)⟩

/-- C12: `String()` is built from the prefix and the datacenter only: it is
`kv.list(p)` when the datacenter is empty and `kv.list(p@dc)` otherwise; it is
the same for any two queries with the same prefix and datacenter, so it does
not depend on the options (`SetOptions`) nor on whether `Stop` was called. -/
theorem C12_string_from_components_only (d : KVListQuery) :
    (d.dc = "" → d.String = "kv.list(" ++ d.pfx ++ ")") ∧
    (d.dc ≠ "" → d.String = "kv.list(" ++ d.pfx ++ "@" ++ d.dc ++ ")") ∧
    (∀ opts : QueryOptions, (d.SetOptions opts).String = d.String) ∧
    (∀ d1 : KVListQuery, d.Stop = Except.ok d1 → d1.String = d.String) ∧
    (∀ d2 : KVListQuery, d2.pfx = d.pfx → d2.dc = d.dc → d2.String = d.String) := by
  refine ⟨?_, ?_, ?_, ?_, ?_⟩
  · intro hdc
    simp [KVListQuery.String, hdc]
  · intro hdc
    simp [KVListQuery.String, hdc, String.append_assoc]
  · intro opts
    rfl
  · intro d1 hstop
    unfold KVListQuery.Stop at hstop
    split at hstop
    · injection hstop with hstop
      rw [← hstop]
      rfl
    · exact Except.noConfusion hstop
  · intro d2 hp hdc
    simp [KVListQuery.String, hp, hdc]

theorem C12_witness :
    (KVListQuery.mk ⟨1, 0, false⟩ "" "foo" {}).String = "kv.list(" ++ "foo" ++ ")" ∧
    (KVListQuery.mk ⟨1, 0, true⟩ "dc1" "foo" { Datacenter := "dc2" }).String
      = "kv.list(" ++ "foo" ++ "@" ++ "dc1" ++ ")" ∧
    (KVListQuery.mk ⟨1, 0, true⟩ "dc1" "foo" { Datacenter := "dc2" }).String
      = (KVListQuery.mk ⟨1, 0, false⟩ "dc1" "foo" {}).String :=
  ⟨(C12_string_from_components_only ⟨⟨1, 0, false⟩, "", "foo", {}⟩).1 rfl,
    (C12_string_from_components_only ⟨⟨1, 0, true⟩, "dc1", "foo", { Datacenter := "dc2" }⟩).2.1
      (by decide),
    (C12_string_from_components_only ⟨⟨1, 0, false⟩, "dc1", "foo", {}⟩).2.2.2.2
      ⟨⟨1, 0, true⟩, "dc1", "foo", { Datacenter := "dc2" }⟩ rfl rfl⟩

/-- C20: the `kv.list` identity is injective on parsed queries: two queries
returned by `NewKVListQuery` with the same `String()` have the same prefix and
the same datacenter. This rests on the parsed prefix holding no `@`; for
arbitrary field values it fails, `a@b` with no datacenter and `a` with
datacenter `b` share `kv.list(a@b)`. -/
theorem C20_identity_injective_on_parsed (s1 s2 : String) (q1 q2 : KVListQuery)
    (h1 : NewKVListQuery s1 = Except.ok q1) (h2 : NewKVListQuery s2 = Except.ok q2)
    (hs : q1.String = q2.String) :
    (q1.pfx = q2.pfx ∧ q1.dc = q2.dc) ∧
    ((KVListQuery.mk ⟨1, 0, false⟩ "" "a@b" {}).String
        = (KVListQuery.mk ⟨1, 0, false⟩ "b" "a" {}).String ∧
      (KVListQuery.mk ⟨1, 0, false⟩ "" "a@b" {}).pfx
        ≠ (KVListQuery.mk ⟨1, 0, false⟩ "b" "a" {}).pfx) := by
  refine ⟨?_, by decide, by decide⟩
  have hd := congrArg String.data hs
  rw [KVListQuery_String_data, KVListQuery_String_data] at hd
  have hd2 := List.append_cancel_left (List.append_cancel_right hd)
  obtain ⟨hp, hdc⟩ := prefix_dc_unique (NewKVListQuery_pfx_no_at h1)
    (NewKVListQuery_pfx_no_at h2) hd2
  exact ⟨String.ext hp, String.ext hdc⟩

theorem C20_witness :
    NewKVListQuery "/foo@dc1" = Except.ok ⟨⟨1, 0, false⟩, "dc1", "foo", {}⟩ ∧
    NewKVListQuery "foo@dc1" = Except.ok ⟨⟨1, 0, false⟩, "dc1", "foo", {}⟩ ∧
    (KVListQuery.mk ⟨1, 0, false⟩ "dc1" "foo" {}).pfx
      = (KVListQuery.mk ⟨1, 0, false⟩ "dc1" "foo" {}).pfx :=
  ⟨rfl, rfl,
    (C20_identity_injective_on_parsed "/foo@dc1" "foo@dc1" ⟨⟨1, 0, false⟩, "dc1", "foo", {}⟩
      ⟨⟨1, 0, false⟩, "dc1", "foo", {}⟩ rfl rfl rfl).1.1⟩

end KVListIdentityClaims

/-! ## Theorems: `Fetch` on a query that was not stopped -/

section KVListFetch

variable {O E : Type}

/-- `Fetch` when the stop channel is open and empty and the store's `List`
fails. -/
theorem Fetch_list_error (qo : QueryOptionsMethods O) (clients : Clients O E) (d : KVListQuery)
    (e : E) (hc : d.stopCh.closed = false) (hb : d.stopCh.buf = 0)
    (he : (clients.List d.pfx (qo.ToConsulOpts (qo.Merge d.opts { Datacenter := d.dc }))).err
      = some e) :
    (d.Fetch qo clients).out
      = FetchOutcome.returned ⟨none, none, some (FetchError.Wrap e d.String)⟩ := by
  have hr : d.stopCh.tryRecv = (false, d.stopCh) := by
    simp [Chan.tryRecv, hc, hb]
  simp [KVListQuery.Fetch, hr, he]

/-- `Fetch` when the stop channel is open and empty and the store's `List`
succeeds. -/
theorem Fetch_list_ok (qo : QueryOptionsMethods O) (clients : Clients O E) (d : KVListQuery)
    (qm : QueryMeta) (hc : d.stopCh.closed = false) (hb : d.stopCh.buf = 0)
    (he : (clients.List d.pfx (qo.ToConsulOpts (qo.Merge d.opts { Datacenter := d.dc }))).err
      = none)
    (hq : (clients.List d.pfx (qo.ToConsulOpts (qo.Merge d.opts { Datacenter := d.dc }))).qm
      = some qm) :
    (d.Fetch qo clients).out
      = FetchOutcome.returned
          ⟨some ((clients.List d.pfx
              (qo.ToConsulOpts (qo.Merge d.opts { Datacenter := d.dc }))).list.map (toKeyPair d)),
            some ⟨qm.LastIndex, qm.LastContact⟩, none⟩ := by
  have hr : d.stopCh.tryRecv = (false, d.stopCh) := by
    simp [Chan.tryRecv, hc, hb]
  simp [KVListQuery.Fetch, hr, he, hq]

/-- `strings.TrimPrefix` takes the prefix off a string that starts with it. -/
theorem TrimPrefix_append (p t : String) : TrimPrefix (p ++ t) p = t := by
  unfold TrimPrefix
  have hpre : p.data.isPrefixOf (p ++ t).data = true := by
    rw [List.isPrefixOf_iff_prefix, String.data_append]
    exact List.prefix_append _ _
  rw [if_pos hpre]
  apply String.ext
  simp

/-- `strings.TrimPrefix` leaves a string that does not start with the prefix
as it is. -/
theorem TrimPrefix_of_not_prefix (s p : String) (h : ¬ p.data <+: s.data) :
    TrimPrefix s p = s := by
  unfold TrimPrefix
  have hpre : ¬ p.data.isPrefixOf s.data = true := by
    rw [List.isPrefixOf_iff_prefix]
    exact h
  rw [if_neg hpre]

/-- `strings.TrimLeft(s, "/")` drops every leading `/`. -/
theorem TrimLeft_slash_data (s : String) :
    (TrimLeft s "/").data = s.data.dropWhile (fun c => c == '/') := by
  unfold TrimLeft
  have hf : (fun c : Char => "/".data.contains c) = (fun c => c == '/') := by
    funext c
    show ['/'].contains c = (c == '/')
    simp only [List.contains, List.elem]
    cases c == '/' <;> rfl
  simp only [hf]

end KVListFetch

section KVListFetchClaims

variable {O E : Type}

/-- C13: merge precedence in `Fetch`, with `Merge` as the spec describes it.
`Fetch` merges with the options set through `SetOptions` as the receiver and
the datacenter parsed from the query string as the argument, and sends the
result (through `ToConsulOpts`) with its one `List` request. So for every
parsed query on which `SetOptions` was called with a non-empty `Datacenter`,
the options of the request carry that datacenter, not the parsed one; with an
empty one they carry the parsed datacenter. -/
theorem C13_caller_options_override_parsed (toConsulOpts : QueryOptions → O)
    (clients : Clients O E) (s : String) (d : KVListQuery) (opts : QueryOptions)
    (h : NewKVListQuery s = Except.ok d) (hdc : opts.Datacenter ≠ "") :
    ((d.SetOptions opts).Fetch (specMethods toConsulOpts) clients).requests
      = [(d.pfx, toConsulOpts (opts.Merge { Datacenter := d.dc }))] ∧
    (opts.Merge { Datacenter := d.dc }).Datacenter = opts.Datacenter ∧
    (∀ o2 : QueryOptions, o2.Datacenter = "" →
      (o2.Merge { Datacenter := d.dc }).Datacenter = d.dc) := by
  have hf := (NewKVListQuery_fresh s d h).1
  have hopen := Fetch_open (specMethods toConsulOpts) clients (d.SetOptions opts)
    (by simp [KVListQuery.SetOptions, hf]) (by simp [KVListQuery.SetOptions, hf])
  refine ⟨hopen.2.1, ?_, ?_⟩
  · simp [QueryOptions.Merge, hdc]
  · intro o2 h2
    simp [QueryOptions.Merge, h2]

theorem C13_witness :
    NewKVListQuery "foo@dc1" = Except.ok ⟨⟨1, 0, false⟩, "dc1", "foo", {}⟩ ∧
    (((KVListQuery.mk ⟨1, 0, false⟩ "dc1" "foo" {}).SetOptions { Datacenter := "dc2" }).Fetch
        (specMethods (fun o => o)) demoClients).requests
      = [("foo", ({ Datacenter := "dc2" } : QueryOptions).Merge { Datacenter := "dc1" })] ∧
    (({ Datacenter := "dc2" } : QueryOptions).Merge { Datacenter := "dc1" }).Datacenter
      = "dc2" :=
  have h := C13_caller_options_override_parsed (fun o => o) demoClients "foo@dc1"
    ⟨⟨1, 0, false⟩, "dc1", "foo", {}⟩ { Datacenter := "dc2" } rfl (by decide)
  ⟨rfl, h.1, h.2.1⟩

/-- C14: on every query returned by `NewKVListQuery` and never stopped since
(only `Fetch` and `SetOptions` were called on it), if the store's `List` call
fails with error `e`, `Fetch` returns a nil value, nil metadata and the error
`errors.Wrap(e, d.String())`: its message is `d.String()`, `": "` and the message
of `e`, and its cause is `e`. -/
theorem C14_list_error_is_wrapped (qo : QueryOptionsMethods O) (clients : Clients O E)
    (text : E → String) (stopped : String)
    (s : String) (d0 d : KVListQuery) (ops : List (Op O E)) (e : E)
    (h : NewKVListQuery s = Except.ok d0)
    (hns : ∀ op ∈ ops, op.isStop = false)
    (hd : d = applyOps qo d0 ops)
    (he : (clients.List d.pfx (qo.ToConsulOpts (qo.Merge d.opts { Datacenter := d.dc }))).err
      = some e) :
    (d.Fetch qo clients).out
      = FetchOutcome.returned ⟨none, none, some (FetchError.Wrap e d.String)⟩ ∧
    (FetchError.Wrap e d.String).Error text stopped = d.String ++ ": " ++ text e ∧
    (FetchError.Wrap e d.String).Cause = some e := by
  have hf := (NewKVListQuery_fresh s d0 h).1
  have hopen := applyOps_open qo ops d0 hns (by rw [hf]) (by rw [hf])
  rw [← hd] at hopen
  exact ⟨Fetch_list_error qo clients d e hopen.1 hopen.2 he, rfl, rfl⟩

theorem C14_witness :
    NewKVListQuery "foo@dc1" = Except.ok ⟨⟨1, 0, false⟩, "dc1", "foo", {}⟩ ∧
    ((KVListQuery.mk ⟨1, 0, false⟩ "dc1" "foo" {}).Fetch demoMethods failingClients).out
      = FetchOutcome.returned
          ⟨none, none, some (FetchError.Wrap "connection refused"
            (KVListQuery.mk ⟨1, 0, false⟩ "dc1" "foo" {}).String)⟩ ∧
    (FetchError.Wrap "connection refused"
        (KVListQuery.mk ⟨1, 0, false⟩ "dc1" "foo" {}).String).Error (fun e => e)
        "dependency stopped"
      = (KVListQuery.mk ⟨1, 0, false⟩ "dc1" "foo" {}).String ++ ": " ++ "connection refused" :=
  have h := C14_list_error_is_wrapped demoMethods failingClients (fun e => e)
    "dependency stopped" "foo@dc1" ⟨⟨1, 0, false⟩, "dc1", "foo", {}⟩
    ⟨⟨1, 0, false⟩, "dc1", "foo", {}⟩ [] "connection refused" rfl
    (by intro op hop; simp at hop) rfl rfl
  ⟨rfl, h.1, h.2.1⟩

/-- C19: on every query returned by `NewKVListQuery` and never stopped since,
with prefix `p`, for every successful `List` response (nil error, metadata
present) `Fetch` returns a nil error and a list with one `KeyPair` per returned
store pair, in the same order: `Path` is the pair's full key; `Key` is that key
with one leading `p` taken off when the key starts with `p`, then with every
leading `/` dropped; `Value` holds the pair's bytes; `CreateIndex`,
`ModifyIndex`, `LockIndex`, `Flags` and `Session` are copied. The metadata
carries the response's `LastIndex` and `LastContact`. -/
theorem C19_fetch_maps_store_pairs (qo : QueryOptionsMethods O) (clients : Clients O E)
    (s : String) (d0 d : KVListQuery) (ops : List (Op O E)) (qm : QueryMeta)
    (h : NewKVListQuery s = Except.ok d0)
    (hns : ∀ op ∈ ops, op.isStop = false)
    (hd : d = applyOps qo d0 ops)
    (he : (clients.List d.pfx (qo.ToConsulOpts (qo.Merge d.opts { Datacenter := d.dc }))).err
      = none)
    (hq : (clients.List d.pfx (qo.ToConsulOpts (qo.Merge d.opts { Datacenter := d.dc }))).qm
      = some qm) :
    ∃ kps : List KeyPair,
      (d.Fetch qo clients).out
        = FetchOutcome.returned ⟨some kps, some ⟨qm.LastIndex, qm.LastContact⟩, none⟩ ∧
      List.Forall₂
        (fun (pair : KVPair) (kp : KeyPair) =>
          kp.Path = pair.Key ∧ kp.Value = pair.Value ∧
          kp.CreateIndex = pair.CreateIndex ∧ kp.ModifyIndex = pair.ModifyIndex ∧
          kp.LockIndex = pair.LockIndex ∧ kp.Flags = pair.Flags ∧ kp.Session = pair.Session ∧
          (∀ t : String, pair.Key = d.pfx ++ t →
            kp.Key.data = t.data.dropWhile (fun c => c == '/')) ∧
          (¬ d.pfx.data <+: pair.Key.data →
            kp.Key.data = pair.Key.data.dropWhile (fun c => c == '/')))
        (clients.List d.pfx (qo.ToConsulOpts (qo.Merge d.opts { Datacenter := d.dc }))).list
        kps := by
  have hf := (NewKVListQuery_fresh s d0 h).1
  have hopen := applyOps_open qo ops d0 hns (by rw [hf]) (by rw [hf])
  rw [← hd] at hopen
  refine ⟨_, Fetch_list_ok qo clients d qm hopen.1 hopen.2 he hq, ?_⟩
  rw [List.forall₂_map_right_iff, List.forall₂_same]
  intro pair _
  refine ⟨rfl, rfl, rfl, rfl, rfl, rfl, rfl, ?_, ?_⟩
  · intro t ht
    show (TrimLeft (TrimPrefix pair.Key d.pfx) "/").data = _
    rw [TrimLeft_slash_data, ht, TrimPrefix_append]
  · intro hnp
    show (TrimLeft (TrimPrefix pair.Key d.pfx) "/").data = _
    rw [TrimLeft_slash_data, TrimPrefix_of_not_prefix _ _ hnp]

theorem C19_witness :
    NewKVListQuery "foo" = Except.ok ⟨⟨1, 0, false⟩, "", "foo", {}⟩ ∧
    ((KVListQuery.mk ⟨1, 0, false⟩ "" "foo" {}).Fetch demoMethods demoClients).out
      = FetchOutcome.returned
          ⟨some [⟨"foo/a", "a", [49], 1, 2, 0, 0, ""⟩, ⟨"foo/b", "b", [50], 3, 4, 0, 0, ""⟩],
            some ⟨4, 0⟩, none⟩ ∧
    (∃ kps : List KeyPair,
      ((KVListQuery.mk ⟨1, 0, false⟩ "" "foo" {}).Fetch demoMethods demoClients).out
        = FetchOutcome.returned ⟨some kps, some ⟨4, 0⟩, none⟩ ∧ kps.length = 2) :=
  have h := C19_fetch_maps_store_pairs demoMethods demoClients "foo"
    ⟨⟨1, 0, false⟩, "", "foo", {}⟩ ⟨⟨1, 0, false⟩, "", "foo", {}⟩ [] ⟨4, 0⟩ rfl
    (by intro op hop; simp at hop) rfl rfl rfl
  ⟨rfl, rfl, h.elim fun kps hk => ⟨kps, hk.1, hk.2.length_eq.symm⟩⟩

end KVListFetchClaims

/-! ## Theorems: the watcher registry -/

section WatcherClaims

variable {D : Type}

/-- After `add`, the dependency's identity is a key of the registry. -/
theorem Watcher.add_mem (dep : Dependency D) (w : Watcher D) (d : D) :
    dep.String d ∈ (w.add dep d).2.depViewMap := by
  unfold Watcher.add
  by_cases hm : dep.String d ∈ w.depViewMap
  · simp [hm]
  · simp [hm, AList.mem_insert]

/-- `add` of a dependency whose identity is already a key changes nothing. -/
theorem Watcher.add_of_mem (dep : Dependency D) (w : Watcher D) (d : D)
    (hm : dep.String d ∈ w.depViewMap) : w.add dep d = ((false, none), w) := by
  simp [Watcher.add, hm]

/-- C15: watcher dedup. For every watcher and every two dependencies with the
same identity, adding the first and then the second leaves exactly one
registry entry for that identity; the second `add` returns false with a nil
error and leaves the registry as the first left it. The first `add` returns
true whenever the identity was not watched before; starting from an empty
watcher it returns true and `Size()` is 1 after both. -/
theorem C15_add_twice_is_one_entry (dep : Dependency D) (w : Watcher D) (d1 d2 : D)
    (hid : dep.String d1 = dep.String d2) :
    ((w.add dep d1).2.add dep d2).1 = (false, none) ∧
    ((w.add dep d1).2.add dep d2).2 = (w.add dep d1).2 ∧
    ((w.add dep d1).2.add dep d2).2.depViewMap.keys.count (dep.String d1) = 1 ∧
    (w.Watching dep d1 = false → (w.add dep d1).1 = (true, none)) ∧
    ((NewWatcher : Watcher D).add dep d1).1 = (true, none) ∧
    (((NewWatcher : Watcher D).add dep d1).2.add dep d2).2.Size = 1 := by
  have hm1 : dep.String d2 ∈ (w.add dep d1).2.depViewMap := by
    rw [← hid]
    exact Watcher.add_mem dep w d1
  have h2 := Watcher.add_of_mem dep (w.add dep d1).2 d2 hm1
  have hempty : dep.String d2 ∈ ((NewWatcher : Watcher D).add dep d1).2.depViewMap := by
    rw [← hid]
    exact Watcher.add_mem dep NewWatcher d1
  have hnew : ((NewWatcher : Watcher D).add dep d1)
      = ((true, none), ⟨AList.singleton (dep.String d1) (NewView d1)⟩) := by
    simp [Watcher.add, NewWatcher, AList.insert_empty]
  refine ⟨by rw [h2], by rw [h2], ?_, ?_, by rw [hnew], ?_⟩
  · rw [h2]
    exact List.count_eq_one_of_mem (AList.keys_nodup _)
      (AList.mem_keys.mp (Watcher.add_mem dep w d1))
  · intro hw
    have hnm : dep.String d1 ∉ w.depViewMap := by
      simpa [Watcher.Watching] using hw
    simp [Watcher.add, hnm]
  · rw [Watcher.add_of_mem dep _ d2 hempty, hnew]
    rfl

theorem C15_witness :
    kvListDependency.String (KVListQuery.mk ⟨1, 0, false⟩ "" "foo" {})
      = kvListDependency.String (KVListQuery.mk ⟨1, 0, true⟩ "" "foo" { Datacenter := "dc2" }) ∧
    (((NewWatcher : Watcher KVListQuery).add kvListDependency
        (KVListQuery.mk ⟨1, 0, false⟩ "" "foo" {})).2.add kvListDependency
        (KVListQuery.mk ⟨1, 0, true⟩ "" "foo" { Datacenter := "dc2" })).1 = (false, none) ∧
    (((NewWatcher : Watcher KVListQuery).add kvListDependency
        (KVListQuery.mk ⟨1, 0, false⟩ "" "foo" {})).2.add kvListDependency
        (KVListQuery.mk ⟨1, 0, true⟩ "" "foo" { Datacenter := "dc2" })).2.Size = 1 :=
  have h := C15_add_twice_is_one_entry kvListDependency NewWatcher
    (KVListQuery.mk ⟨1, 0, false⟩ "" "foo" {})
    (KVListQuery.mk ⟨1, 0, true⟩ "" "foo" { Datacenter := "dc2" }) rfl
  ⟨rfl, h.1, h.2.2.2.2.2⟩

/-- C16: watcher removal. `remove(d)` returns true exactly when the identity of
`d` is a key of the registry before the call; afterwards the identity is not a
key (`Watching(d)` is false) and the entry of every other identity is what it
was; on an unwatched dependency `remove` returns false and leaves the registry
unchanged. -/
theorem C16_remove_deletes_only_that_entry (dep : Dependency D) (w : Watcher D) (d : D) :
    ((w.remove dep d).1 = true ↔ dep.String d ∈ w.depViewMap) ∧
    ((w.remove dep d).1 = w.Watching dep d) ∧
    (w.remove dep d).2.Watching dep d = false ∧
    (∀ k : String, k ≠ dep.String d →
      (w.remove dep d).2.depViewMap.lookup k = w.depViewMap.lookup k) ∧
    (w.Watching dep d = false → w.remove dep d = (false, w)) := by
  by_cases hm : dep.String d ∈ w.depViewMap
  · have hr : w.remove dep d = (true, ⟨w.depViewMap.erase (dep.String d)⟩) := by
      simp [Watcher.remove, hm]
    rw [hr]
    refine ⟨by simp [hm], by simp [Watcher.Watching, hm], ?_, ?_, ?_⟩
    · simp [Watcher.Watching, AList.mem_erase]
    · intro k hk
      exact AList.lookup_erase_ne hk
    · intro hw
      simp [Watcher.Watching, hm] at hw
  · have hr : w.remove dep d = (false, w) := by
      simp [Watcher.remove, hm]
    rw [hr]
    refine ⟨by simp [hm], by simp [Watcher.Watching, hm], ?_, ?_, ?_⟩
    · simp [Watcher.Watching, hm]
    · intro k _
      rfl
    · intro _
      rfl

theorem C16_witness :
    (((NewWatcher : Watcher KVListQuery).add kvListDependency
        (KVListQuery.mk ⟨1, 0, false⟩ "" "foo" {})).2.remove kvListDependency
        (KVListQuery.mk ⟨1, 0, false⟩ "" "foo" {})).1 = true ∧
    (((NewWatcher : Watcher KVListQuery).add kvListDependency
        (KVListQuery.mk ⟨1, 0, false⟩ "" "foo" {})).2.remove kvListDependency
        (KVListQuery.mk ⟨1, 0, false⟩ "" "foo" {})).2.Watching kvListDependency
        (KVListQuery.mk ⟨1, 0, false⟩ "" "foo" {}) = false ∧
    (NewWatcher : Watcher KVListQuery).remove kvListDependency
        (KVListQuery.mk ⟨1, 0, false⟩ "" "foo" {})
      = (false, NewWatcher) :=
  ⟨(C16_remove_deletes_only_that_entry kvListDependency
      ((NewWatcher : Watcher KVListQuery).add kvListDependency
        (KVListQuery.mk ⟨1, 0, false⟩ "" "foo" {})).2
      (KVListQuery.mk ⟨1, 0, false⟩ "" "foo" {})).1.mpr
      (Watcher.add_mem kvListDependency NewWatcher (KVListQuery.mk ⟨1, 0, false⟩ "" "foo" {})),
    (C16_remove_deletes_only_that_entry kvListDependency
      ((NewWatcher : Watcher KVListQuery).add kvListDependency
        (KVListQuery.mk ⟨1, 0, false⟩ "" "foo" {})).2
      (KVListQuery.mk ⟨1, 0, false⟩ "" "foo" {})).2.2.1,
    (C16_remove_deletes_only_that_entry kvListDependency NewWatcher
      (KVListQuery.mk ⟨1, 0, false⟩ "" "foo" {})).2.2.2.2 rfl⟩

end WatcherClaims

/-! ## Theorems: the `catalog.service` grammar -/

section CatalogServiceGrammar

/-- A text cut at a separator: when no character before the cut is the
separator and what follows is empty or starts with it, the run of characters
other than the separator is all that stands before the cut. -/
theorem span_at_separator (sep : Char) (a b : List Char)
    (ha : ∀ c ∈ a, c ≠ sep) (hb : b = [] ∨ ∃ t, b = sep :: t) :
    (a ++ b).takeWhile (fun c => c != sep) = a ∧
    (a ++ b).dropWhile (fun c => c != sep) = b := by
  have hpos : ∀ c ∈ a, (fun c => c != sep) c = true := by
    intro c hc
    simpa using ha c hc
  rw [List.takeWhile_append_of_pos hpos, List.dropWhile_append_of_pos hpos]
  rcases hb with hb | ⟨t, hb⟩
  · simp [hb]
  · simp [hb]

/-- A trailing group, present or absent, as text. -/
theorem matchOptionalGroup_some {sep : Char} {cls : Char → Bool} {cs g : List Char}
    (h : matchOptionalGroup sep cls cs = some g) :
    cs = (if g = [] then [] else sep :: g) := by
  unfold matchOptionalGroup at h
  split at h
  · injection h with h
    simp [← h]
  · rename_i c body
    split at h
    · rename_i hcond
      injection h with h
      subst h
      simp only [Bool.and_eq_true, beq_iff_eq, Bool.not_eq_true', List.isEmpty_eq_false] at hcond
      have hne : body ≠ [] := by
        intro h0
        simp [h0] at hcond
      simp [hne, hcond.1.1]
    · exact Option.noConfusion h

/-- A trailing group built from a valid part matches and gives that part. -/
theorem matchOptionalGroup_build (sep : Char) (cls : Char → Bool) (g : List Char)
    (hg : g.all cls = true) :
    matchOptionalGroup sep cls (if g = [] then [] else sep :: g) = some g := by
  by_cases h0 : g = []
  · simp [h0, matchOptionalGroup]
  · have hne : g.isEmpty = false := by
      cases g with
      | nil => exact absurd rfl h0
      | cons _ _ => rfl
    simp only [h0, if_false, matchOptionalGroup, beq_self_eq_true, hne, Bool.not_false,
      Bool.and_self, hg, if_true]

/-- The text `[tag.]name` put together again from its split. -/
theorem splitTagName_spec (cs : List Char) :
    cs = (match (splitTagName cs).1 with
      | none => (splitTagName cs).2
      | some t => t ++ '.' :: (splitTagName cs).2) := by
  unfold splitTagName
  have hsplit := List.takeWhile_append_dropWhile (fun c => c != '.') cs.reverse
  cases hd : List.dropWhile (fun c => c != '.') cs.reverse with
  | nil => rfl
  | cons x tagRev =>
    have hx : x = '.' := dropWhile_head_eq hd
    rw [hd, hx] at hsplit
    have := congrArg List.reverse hsplit
    simp only [List.reverse_append, List.reverse_cons, List.reverse_reverse,
      List.append_assoc, List.singleton_append] at this
    simpa using this.symm

/-- The split of `[tag.]name` built from a tag and a name without `.`. -/
theorem splitTagName_build (t n : List Char) (hn : ∀ c ∈ n, c ≠ '.') :
    splitTagName ((if t = [] then [] else t ++ ['.']) ++ n)
      = (if t = [] then none else some t, n) := by
  have hrev : ((if t = [] then [] else t ++ ['.']) ++ n).reverse
      = n.reverse ++ (if t = [] then [] else '.' :: t.reverse) := by
    by_cases h0 : t = [] <;> simp [h0]
  have hsp := span_at_separator '.' n.reverse (if t = [] then [] else '.' :: t.reverse)
    (by intro c hc; exact hn c (List.mem_reverse.mp hc))
    (by by_cases h0 : t = []
        · left; simp [h0]
        · right; exact ⟨t.reverse, by simp [h0]⟩)
  unfold splitTagName
  rw [hrev, hsp.1, hsp.2]
  by_cases h0 : t = []
  · simp [h0]
  · simp [h0]

end CatalogServiceGrammar

section CatalogServiceMatch

/-- The text `[tag.]name[@dc][~near]` as characters, an empty part being an
absent one. -/
theorem catalogServiceInput_data (tag name dc near : String) :
    (catalogServiceInput tag name dc near).data
      = (if tag.data = [] then [] else tag.data ++ ['.']) ++ name.data
        ++ (if dc.data = [] then [] else '@' :: dc.data)
        ++ (if near.data = [] then [] else '~' :: near.data) := by
  have hiff : ∀ x : String, x.data = [] ↔ x = "" := fun x =>
    ⟨fun h => String.ext h, fun h => by rw [h]⟩
  unfold catalogServiceInput
  simp only [hiff]
  by_cases ht : tag = "" <;> by_cases hd : dc = "" <;> by_cases hr : near = "" <;>
    simp [ht, hd, hr]

/-- What a match of `matchCatalogService` says about the text: it is its four
submatches put together again, with the separators of the parts that are
present, and the name is not empty. -/
theorem matchCatalogService_some {cs t n d r : List Char}
    (h : matchCatalogService cs = some (t, n, d, r)) :
    cs = (if t = [] then [] else t ++ ['.']) ++ n
        ++ (if d = [] then [] else '@' :: d) ++ (if r = [] then [] else '~' :: r) ∧
    n ≠ [] := by
  unfold matchCatalogService at h
  simp only at h
  have hcs := List.takeWhile_append_dropWhile (fun c => c != '~') cs
  have hfront := List.takeWhile_append_dropWhile (fun c => c != '@')
    (cs.takeWhile (fun c => c != '~'))
  have htn := splitTagName_spec ((cs.takeWhile (fun c => c != '~')).takeWhile (fun c => c != '@'))
  cases hnear : matchOptionalGroup '~' isDcChar (cs.dropWhile (fun c => c != '~')) with
  | none => simp [hnear] at h
  | some near =>
    cases hdc : matchOptionalGroup '@' isDcChar
        ((cs.takeWhile (fun c => c != '~')).dropWhile (fun c => c != '@')) with
    | none => simp [hnear, hdc] at h
    | some dc =>
      have e1 := matchOptionalGroup_some hnear
      have e2 := matchOptionalGroup_some hdc
      simp only [hnear, hdc] at h
      split at h
      · rename_i hname
        simp only [Bool.and_eq_true, Bool.not_eq_true', List.isEmpty_eq_false] at hname
        cases htag : (splitTagName
            ((cs.takeWhile (fun c => c != '~')).takeWhile (fun c => c != '@'))).1 with
        | none =>
          simp only [htag, Option.some.injEq, Prod.mk.injEq] at h
          obtain ⟨h1, h2, h3, h4⟩ := h
          subst h1 h3 h4
          rw [htag] at htn
          simp only at htn
          rw [h2] at htn
          refine ⟨?_, ?_⟩
          · rw [← hcs, ← hfront, e1, e2, htn]
            simp
          · rw [← h2]
            intro h0
            simp [h0] at hname
        | some tag =>
          simp only [htag] at h
          split at h
          · rename_i htagc
            simp only [Bool.and_eq_true, Bool.not_eq_true', List.isEmpty_eq_false] at htagc
            simp only [Option.some.injEq, Prod.mk.injEq] at h
            obtain ⟨h1, h2, h3, h4⟩ := h
            subst h1 h3 h4
            rw [htag] at htn
            simp only at htn
            rw [h2] at htn
            have htne : tag ≠ [] := by
              intro h0
              simp [h0] at htagc
            refine ⟨?_, ?_⟩
            · rw [← hcs, ← hfront, e1, e2, htn]
              simp [htne]
            · rw [← h2]
              intro h0
              simp [h0] at hname
          · exact Option.noConfusion h
      · exact Option.noConfusion h

end CatalogServiceMatch

section CatalogServiceBuild

theorem isNameChar_not_separator {c : Char} (h : isNameChar c = true) :
    c ≠ '.' ∧ c ≠ '@' ∧ c ≠ '~' := by
  refine ⟨?_, ?_, ?_⟩ <;> (rintro rfl; revert h; decide)

theorem isTagChar_not_separator {c : Char} (h : isTagChar c = true) : c ≠ '@' ∧ c ≠ '~' := by
  refine ⟨?_, ?_⟩ <;> (rintro rfl; revert h; decide)

theorem isDcChar_not_separator {c : Char} (h : isDcChar c = true) : c ≠ '@' ∧ c ≠ '~' := by
  refine ⟨?_, ?_⟩ <;> (rintro rfl; revert h; decide)

/-- A text built from valid parts matches, and its submatches are those
parts. -/
theorem matchCatalogService_build (t n d r : List Char) (hn : n ≠ [])
    (hnc : n.all isNameChar = true) (htc : t.all isTagChar = true)
    (hdc : d.all isDcChar = true) (hrc : r.all isDcChar = true) :
    matchCatalogService ((if t = [] then [] else t ++ ['.']) ++ n
        ++ (if d = [] then [] else '@' :: d) ++ (if r = [] then [] else '~' :: r))
      = some (t, n, d, r) := by
  rw [List.all_eq_true] at hnc htc hdc hrc
  have hT : ∀ c ∈ (if t = [] then [] else t ++ ['.']), c ≠ '@' ∧ c ≠ '~' := by
    intro c hc
    by_cases h0 : t = []
    · simp [h0] at hc
    · simp only [h0, if_false, List.mem_append, List.mem_singleton] at hc
      rcases hc with hc | hc
      · exact isTagChar_not_separator (htc c hc)
      · subst hc
        exact ⟨by decide, by decide⟩
  have hTn : ∀ c ∈ (if t = [] then [] else t ++ ['.']) ++ n, c ≠ '@' ∧ c ≠ '~' := by
    intro c hc
    rcases List.mem_append.mp hc with hc | hc
    · exact hT c hc
    · exact (isNameChar_not_separator (hnc c hc)).2
  have hD : ∀ c ∈ (if d = [] then [] else '@' :: d), c ≠ '~' := by
    intro c hc
    by_cases h0 : d = []
    · simp [h0] at hc
    · simp only [h0, if_false, List.mem_cons] at hc
      rcases hc with hc | hc
      · subst hc
        decide
      · exact (isDcChar_not_separator (hdc c hc)).2
  have hsp1 := span_at_separator '~'
    ((if t = [] then [] else t ++ ['.']) ++ n ++ (if d = [] then [] else '@' :: d))
    (if r = [] then [] else '~' :: r)
    (by
      intro c hc
      rcases List.mem_append.mp hc with hc | hc
      · exact (hTn c hc).2
      · exact hD c hc)
    (by
      by_cases h0 : r = []
      · left; simp [h0]
      · right; exact ⟨r, by simp [h0]⟩)
  have hsp2 := span_at_separator '@' ((if t = [] then [] else t ++ ['.']) ++ n)
    (if d = [] then [] else '@' :: d)
    (fun c hc => (hTn c hc).1)
    (by
      by_cases h0 : d = []
      · left; simp [h0]
      · right; exact ⟨d, by simp [h0]⟩)
  have hst := splitTagName_build t n (fun c hc => (isNameChar_not_separator (hnc c hc)).1)
  have hg1 := matchOptionalGroup_build '~' isDcChar r (List.all_eq_true.mpr hrc)
  have hg2 := matchOptionalGroup_build '@' isDcChar d (List.all_eq_true.mpr hdc)
  have hne : n.isEmpty = false := by
    cases n with
    | nil => exact absurd rfl hn
    | cons _ _ => rfl
  unfold matchCatalogService
  simp only [hsp1.1, hsp1.2, hsp2.1, hsp2.2, hst, hg1, hg2, hne, Bool.not_false,
    List.all_eq_true.mpr hnc, Bool.and_self, if_true]
  by_cases h0 : t = []
  · simp [h0]
  · have hte : t.isEmpty = false := by
      cases t with
      | nil => exact absurd rfl h0
      | cons _ _ => rfl
    simp [h0, hte, List.all_eq_true.mpr htc]

end CatalogServiceBuild

section CatalogServiceClaims

/-- What `NewCatalogServiceQuery` returns on success: the fields are the
submatches of the pattern on the input. -/
theorem NewCatalogServiceQuery_ok {s : String} {q : CatalogServiceQuery}
    (h : NewCatalogServiceQuery s = Except.ok q) :
    matchCatalogService s.data = some (q.tag.data, q.name.data, q.dc.data, q.near.data) := by
  unfold NewCatalogServiceQuery at h
  split at h
  · exact Except.noConfusion h
  · rename_i g hg
    injection h with h
    subst h
    unfold CatalogServiceQueryRe at hg
    simp only [Option.map_eq_some'] at hg
    obtain ⟨g0, hg0, hg1⟩ := hg
    subst hg1
    rw [hg0]

/-- `String()` puts the text `[tag.]name[@dc][~near]` of the fields between
its brackets. -/
theorem CatalogServiceQuery_String_eq (q : CatalogServiceQuery) :
    q.String = "catalog.service(" ++ catalogServiceInput q.tag q.name q.dc q.near ++ ")" := by
  unfold CatalogServiceQuery.String catalogServiceInput
  by_cases ht : q.tag = "" <;> by_cases hd : q.dc = "" <;> by_cases hr : q.near = "" <;>
    simp [ht, hd, hr, String.append_assoc]

/-- C17: `NewCatalogServiceQuery` parses `[tag.]name[@datacenter][~near]`. For
every input built from a non-empty name and any combination of the optional
tag (which may hold a colon), datacenter and near parts, each part made of the
characters of its class, it succeeds and the `tag`, `name`, `dc` and `near`
fields are exactly those parts, an absent part being the empty string. It
returns an error and no query for the empty string, a bare `@dc1`, a bare
`~near` and a bare `tag.`; no accepted input has an empty name. -/
theorem C17_catalog_service_parses_grammar (tag name dc near : String)
    (hn : name ≠ "")
    (hnc : name.data.all isNameChar = true) (htc : tag.data.all isTagChar = true)
    (hdc : dc.data.all isDcChar = true) (hrc : near.data.all isDcChar = true) :
    NewCatalogServiceQuery (catalogServiceInput tag name dc near)
      = Except.ok ⟨Chan.make 1, dc, name, near, tag⟩ ∧
    NewCatalogServiceQuery "" = Except.error (CatalogServiceParseError.invalidFormat "") ∧
    NewCatalogServiceQuery "@dc1"
      = Except.error (CatalogServiceParseError.invalidFormat "@dc1") ∧
    NewCatalogServiceQuery "~near"
      = Except.error (CatalogServiceParseError.invalidFormat "~near") ∧
    NewCatalogServiceQuery "tag."
      = Except.error (CatalogServiceParseError.invalidFormat "tag.") ∧
    (∀ (s : String) (q : CatalogServiceQuery),
      NewCatalogServiceQuery s = Except.ok q → q.name ≠ "") := by
  refine ⟨?_, rfl, rfl, rfl, rfl, ?_⟩
  · have hne : name.data ≠ [] := fun h0 => hn (String.ext h0)
    have hm := matchCatalogService_build tag.data name.data dc.data near.data hne hnc htc hdc hrc
    unfold NewCatalogServiceQuery CatalogServiceQueryRe
    rw [catalogServiceInput_data, hm]
    rfl
  · intro s q h hname
    have hm := (matchCatalogService_some (NewCatalogServiceQuery_ok h)).2
    apply hm
    rw [hname]

theorem C17_witness :
    catalogServiceInput "tag:value" "name" "dc" "near" = "tag:value.name@dc~near" ∧
    NewCatalogServiceQuery (catalogServiceInput "tag:value" "name" "dc" "near")
      = Except.ok ⟨Chan.make 1, "dc", "name", "near", "tag:value"⟩ ∧
    NewCatalogServiceQuery (catalogServiceInput "" "name" "" "")
      = Except.ok ⟨Chan.make 1, "", "name", "", ""⟩ :=
  ⟨by decide,
    (C17_catalog_service_parses_grammar "tag:value" "name" "dc" "near" (by decide) (by decide)
      (by decide) (by decide) (by decide)).1,
    (C17_catalog_service_parses_grammar "" "name" "" "" (by decide) (by decide)
      (by decide) (by decide) (by decide)).1⟩

/-- C18: round trip for `catalog.service`. For every input `s` that
`NewCatalogServiceQuery` accepts, `s` is the text of the parsed fields in the
fixed order tag `.` name `@` dc `~` near, with only the parts that are present,
and `String()` of the query is `catalog.service(s)`. -/
theorem C18_catalog_service_round_trip (s : String) (q : CatalogServiceQuery)
    (h : NewCatalogServiceQuery s = Except.ok q) :
    q.String = "catalog.service(" ++ s ++ ")" ∧
    s = catalogServiceInput q.tag q.name q.dc q.near := by
  have hs : s = catalogServiceInput q.tag q.name q.dc q.near := by
    apply String.ext
    rw [catalogServiceInput_data]
    exact (matchCatalogService_some (NewCatalogServiceQuery_ok h)).1
  refine ⟨?_, hs⟩
  rw [CatalogServiceQuery_String_eq, ← hs]

theorem C18_witness :
    NewCatalogServiceQuery "tag.name@dc~near"
      = Except.ok ⟨⟨1, 0, false⟩, "dc", "name", "near", "tag"⟩ ∧
    (CatalogServiceQuery.mk ⟨1, 0, false⟩ "dc" "name" "near" "tag").String
      = "catalog.service(" ++ "tag.name@dc~near" ++ ")" :=
  ⟨rfl,
    (C18_catalog_service_round_trip "tag.name@dc~near"
      ⟨⟨1, 0, false⟩, "dc", "name", "near", "tag"⟩ rfl).1⟩

end CatalogServiceClaims

end Hcat
